import Mathlib

/-!
Verification model of the usbackup-gphotos indexing / reconciliation engine.

The Python source is shallowly embedded as follows.

* Database rows of the three tables (media_items, albums, albums_items) are
  structures; the whole SQLite database is a `Db` record of three row lists
  plus the AUTOINCREMENT counters.  Rows are kept in primary-key order, which
  makes the `ORDER BY media_id ASC` (resp. album_id) of the search queries the
  identity on the stored list; the well-formedness predicates below record
  this ordering.
* SQL DATETIME values are TEXT in the schema and are compared bytewise by
  SQLite; they are modelled as `String` with the lexicographic order (the
  fixed-width "YYYY-MM-DD HH:MM:SS" format makes this the chronological
  order).
* `datetime.now()` reads are modelled by an input oracle `clock : Nat → String`
  together with a tick counter that is threaded through and advanced at every
  read, so a run may observe any non-decreasing sequence of wall-clock values.
* Remote API replies are inputs: one listing is a `List PageRes`, where a page
  either holds the decoded items plus the presence of a nextPageToken, or
  records that the underlying HTTP call raised.  Items themselves are
  structured records, i.e. the payload is well-formed as guaranteed by the
  API contract (per-item Python KeyError paths for malformed payloads are not
  modelled).
* Python functions that raise are embedded as `Except String`, the message
  mirroring the exception.
* Statements that SQLite itself rejects at execution time (unbound
  placeholders, unknown keyword arguments raised by Python before the call)
  are embedded as the corresponding `Except.error`, with a comment at the
  definition pointing at the offending source line.
-/

/-- Closed status enumeration of media_items and albums_items rows
(MediaItemsModel._item_statuses, AlbumsModel._item_statuses). -/
def itemStatuses : List String :=
  ["pending_sync", "sync_error", "synced", "stale", "ignored"]

/-- Closed status enumeration of albums rows (AlbumsModel._album_statuses). -/
def albumStatuses : List String :=
  ["indexed", "stale", "index_error"]

/-- Row of the media_items table (MediaItemsModel._ensure_table). -/
structure MediaItemRow where
  media_id : Nat
  remote_id : String
  name : String
  cname : String
  mime_type : String
  create_date : String
  modify_date : String
  path : String
  index_date : String
  last_checked : String
  status : String
deriving Repr, DecidableEq

/-- Row of the albums table (AlbumsModel._ensure_table). -/
structure AlbumRow where
  album_id : Nat
  remote_id : String
  name : String
  cname : String
  size : Int
  cover_photo_id : String
  path : String
  index_date : String
  last_checked : String
  status : String
deriving Repr, DecidableEq

/-- Row of the albums_items join table (AlbumsModel._ensure_table). -/
structure AlbumItemRow where
  album_item_id : Nat
  album_id : Nat
  media_id : Nat
  status : String
deriving Repr, DecidableEq

/-- The embedded relational store: the three tables plus their AUTOINCREMENT
counters.  Row lists are kept in primary-key (insertion) order. -/
structure Db where
  mediaItems : List MediaItemRow
  albums : List AlbumRow
  albumsItems : List AlbumItemRow
  nextMediaId : Nat
  nextAlbumId : Nat
  nextAlbumItemId : Nat
deriving Repr, DecidableEq

/-- The empty database. -/
def Db.empty : Db :=
  { mediaItems := [], albums := [], albumsItems := []
    nextMediaId := 1, nextAlbumId := 1, nextAlbumItemId := 1 }

/-- Truthiness of an optional string parameter, as Python `if param:`
evaluates it (None and the empty string are falsy). -/
def strTruthy : Option String → Bool
  | none => false
  | some s => !(s = "")

/-- Lexicographic order on character lists. -/
def charListLt : List Char → List Char → Bool
  | [], [] => false
  | [], _ :: _ => true
  | _ :: _, [] => false
  | a :: as, b :: bs => a < b || (a = b && charListLt as bs)

/-- The bytewise TEXT comparison SQLite applies to the stored DATETIME
strings (on the ASCII timestamp format, codepoint order equals byte
order). -/
def strLt (a b : String) : Bool :=
  charListLt a.data b.data

/-- MediaItemsModel.get_media_item_meta restricted to a remote_id lookup
(SELECT ... WHERE remote_id=:remote_id LIMIT 1; an empty result is the empty
dict, modelled as none). -/
def getMediaItemMetaByRemoteId (db : Db) (remoteId : String) : Option MediaItemRow :=
  db.mediaItems.find? (fun r => r.remote_id = remoteId)

/-- MediaItemsModel.get_media_item_meta restricted to a media_id lookup. -/
def getMediaItemMetaById (db : Db) (mediaId : Nat) : Option MediaItemRow :=
  db.mediaItems.find? (fun r => r.media_id = mediaId)

/-- Status filter of the search / count queries: an empty list means the
caller passed no status (falsy), so no IN condition is added. -/
def statusMatch (status : List String) (s : String) : Bool :=
  match status with
  | [] => true
  | _ => status.contains s

/-- MediaItemsModel.get_media_items_meta_cnt. -/
def getMediaItemsMetaCnt (db : Db) (status : List String) : Nat :=
  (db.mediaItems.filter (fun r => statusMatch status r.status)).length

/-- MediaItemsModel.search_media_items_meta: optional exact-match filters on
cname and path, optional status IN filter, ORDER BY media_id ASC (the stored
order), LIMIT and OFFSET. -/
def searchMediaItemsMeta (db : Db) (limit offset : Nat) (cname path : Option String)
    (status : List String) : List MediaItemRow :=
  let rows := db.mediaItems.filter (fun r =>
    (if strTruthy cname then r.cname = cname.getD "" else true) &&
    (if strTruthy path then r.path = path.getD "" else true) &&
    statusMatch status r.status)
  (rows.drop offset).take limit

/-- Field updates accepted by MediaItemsModel.update_media_item_meta; the
allowed-keys check of the source is enforced by this record shape. -/
structure MediaItemUpdate where
  index_date : Option String := none
  last_checked : Option String := none
  status : Option String := none
deriving Repr, DecidableEq

/-- Application of the SET clause of update_media_item_meta to one row. -/
def applyMediaItemUpdate (u : MediaItemUpdate) (r : MediaItemRow) : MediaItemRow :=
  { r with
    index_date := u.index_date.getD r.index_date
    last_checked := u.last_checked.getD r.last_checked
    status := u.status.getD r.status }

/-- Effect of the UPDATE statement of update_media_item_meta on the table
(UPDATE ... WHERE media_id=:media_id LIMIT 1; media_id is the primary key, so
at most one row matches). -/
def updateMediaItemRows (db : Db) (mediaId : Nat) (u : MediaItemUpdate) : Db :=
  { db with mediaItems := db.mediaItems.map (fun r =>
      if r.media_id = mediaId then applyMediaItemUpdate u r else r) }

/-- MediaItemsModel.update_media_item_meta: raises on a missing (falsy)
media_id and on a status outside the closed enumeration, before any SQL is
executed; otherwise updates the row with the given primary key and returns
the rowcount.  The statement runs with commit=False. -/
def updateMediaItemMeta (db : Db) (mediaId : Nat) (u : MediaItemUpdate) :
    Except String (Db × Nat) :=
  if mediaId = 0 then
    .error "ValueError: Missing media_id"
  else if u.status.isSome && !(itemStatuses.contains (u.status.getD "")) then
    .error "ValueError: Invalid status"
  else
    let cnt := (db.mediaItems.filter (fun r => r.media_id = mediaId)).length
    .ok (updateMediaItemRows db mediaId u, min cnt 1)

/-- MediaItemsModel.set_media_items_stale: UPDATE media_items SET
status="stale" with the last_checked<:last_checked condition added only when
the parameter is truthy (neither None nor the empty string); returns the
number of affected rows. -/
def setMediaItemsStale (db : Db) (lastChecked : Option String) : Db × Nat :=
  let cond : MediaItemRow → Bool := fun r =>
    if strTruthy lastChecked then strLt r.last_checked (lastChecked.getD "") else true
  ({ db with mediaItems := db.mediaItems.map (fun r =>
      if cond r then { r with status := "stale" } else r) },
   (db.mediaItems.filter cond).length)

/-- MediaItemsModel.delete_media_item_meta (commit=False). -/
def deleteMediaItemMeta (db : Db) (mediaId : Nat) : Except String (Db × Nat) :=
  if mediaId = 0 then
    .error "ValueError: Missing media_id"
  else
    let cnt := (db.mediaItems.filter (fun r => r.media_id = mediaId)).length
    .ok ({ db with mediaItems := db.mediaItems.filter (fun r => !(r.media_id = mediaId)) }, cnt)

/-- Arguments of MediaItemsModel.add_media_item_meta. -/
structure MediaItemAdd where
  remote_id : String
  name : String
  cname : String
  mime_type : String
  create_date : String
  modify_date : String
  path : String
  index_date : String
  last_checked : String
  status : String
deriving Repr, DecidableEq

/-- Effect of the INSERT ... ON CONFLICT (remote_id) DO UPDATE SET
index_date, last_checked, status statement of add_media_item_meta: only those
three columns are refreshed on conflict, a fresh row gets the next
AUTOINCREMENT id.  The returned number is cursor.lastrowid.  The statement
runs with the Storage.execute default commit=True; durability is modelled
separately by the Store layer below. -/
def addMediaItemRows (db : Db) (a : MediaItemAdd) : Db × Nat :=
  if (db.mediaItems.find? (fun r => r.remote_id = a.remote_id)).isSome then
    ({ db with mediaItems := db.mediaItems.map (fun r =>
         if r.remote_id = a.remote_id then
           { r with index_date := a.index_date, last_checked := a.last_checked,
                    status := a.status }
         else r) },
     db.nextMediaId)
  else
    ({ db with
       mediaItems := db.mediaItems ++
         [{ media_id := db.nextMediaId, remote_id := a.remote_id, name := a.name,
            cname := a.cname, mime_type := a.mime_type, create_date := a.create_date,
            modify_date := a.modify_date, path := a.path, index_date := a.index_date,
            last_checked := a.last_checked, status := a.status }]
       nextMediaId := db.nextMediaId + 1 },
     db.nextMediaId)

/-- MediaItemsModel.add_media_item_meta with its status guard in front of the
upsert. -/
def addMediaItemMeta (db : Db) (a : MediaItemAdd) : Except String (Db × Nat) :=
  if !(a.status = "") && !(itemStatuses.contains a.status) then
    .error "ValueError: Invalid status"
  else
    .ok (addMediaItemRows db a)

/-- AlbumsModel.get_album_meta restricted to a remote_id lookup. -/
def getAlbumMetaByRemoteId (db : Db) (remoteId : String) : Option AlbumRow :=
  db.albums.find? (fun r => r.remote_id = remoteId)

/-- AlbumsModel.get_album_meta restricted to an album_id lookup. -/
def getAlbumMetaById (db : Db) (albumId : Nat) : Option AlbumRow :=
  db.albums.find? (fun r => r.album_id = albumId)

/-- AlbumsModel.get_albums_meta_cnt. -/
def getAlbumsMetaCnt (db : Db) (status : List String) : Nat :=
  (db.albums.filter (fun r => statusMatch status r.status)).length

/-- The COUNT query of get_albums_items_meta_cnt (the status_not-free part). -/
def albumsItemsCntRows (db : Db) (status : List String) (albumId : Option Nat) : Nat :=
  (db.albumsItems.filter (fun r =>
    statusMatch status r.status &&
    (match albumId with | none => true | some i => r.album_id = i))).length

/-- AlbumsModel.get_albums_items_meta_cnt.  When status_not is truthy the
source runs `gen_in_condition("status", status_not, placeholders, negate=True)`
(albums_model.py line 102), but Storage.gen_in_condition (storage.py line 47)
accepts no keyword named negate - negation is only expressible there by
passing a ("not", values) tuple - so Python raises TypeError before any SQL
is built.  With status_not falsy the count query runs normally. -/
def getAlbumsItemsMetaCnt (db : Db) (status : List String) (statusNot : List String)
    (albumId : Option Nat) : Except String Nat :=
  if !(statusNot = []) then
    .error "TypeError: gen_in_condition got an unexpected keyword argument negate"
  else
    .ok (albumsItemsCntRows db status albumId)

/-- AlbumsModel.search_albums_meta: optional cname / path / status filters,
ORDER BY album_id ASC (the stored order), LIMIT and OFFSET. -/
def searchAlbumsMeta (db : Db) (limit offset : Nat) (cname path : Option String)
    (status : List String) : List AlbumRow :=
  let rows := db.albums.filter (fun r =>
    (if strTruthy cname then r.cname = cname.getD "" else true) &&
    (if strTruthy path then r.path = path.getD "" else true) &&
    statusMatch status r.status)
  (rows.drop offset).take limit

/-- Joined row shape returned by AlbumsModel.search_albums_items_meta /
get_album_item_meta: the albums_items row plus the LEFT JOINed album and
media item columns (none when the joined row is missing, as SQL NULL). -/
structure AlbumItemJoined where
  album_item_id : Nat
  album_id : Nat
  media_id : Nat
  status : String
  item_name : Option String
  album_name : Option String
  item_cname : Option String
  album_cname : Option String
  item_path : Option String
  album_path : Option String
  item_status : Option String
  album_status : Option String
deriving Repr, DecidableEq

/-- LEFT JOIN of one albums_items row with its album and media item rows. -/
def joinAlbumItem (db : Db) (r : AlbumItemRow) : AlbumItemJoined :=
  let a := getAlbumMetaById db r.album_id
  let mi := getMediaItemMetaById db r.media_id
  { album_item_id := r.album_item_id, album_id := r.album_id, media_id := r.media_id,
    status := r.status,
    item_name := mi.map (fun m => m.name), album_name := a.map (fun x => x.name),
    item_cname := mi.map (fun m => m.cname), album_cname := a.map (fun x => x.cname),
    item_path := mi.map (fun m => m.path), album_path := a.map (fun x => x.path),
    item_status := mi.map (fun m => m.status), album_status := a.map (fun x => x.status) }

/-- Comparison implementing the ORDER BY album_id ASC, media_id ASC of
search_albums_items_meta. -/
def albumItemLe (x y : AlbumItemRow) : Bool :=
  x.album_id < y.album_id || (x.album_id = y.album_id && x.media_id ≤ y.media_id)

/-- Insertion into a sorted row list (structural sorting for ORDER BY). -/
def insertAlbumItemSorted (x : AlbumItemRow) : List AlbumItemRow → List AlbumItemRow
  | [] => [x]
  | y :: ys => if albumItemLe x y then x :: y :: ys else y :: insertAlbumItemSorted x ys

/-- Sorting of the albums_items rows for ORDER BY album_id ASC, media_id
ASC. -/
def sortAlbumsItems : List AlbumItemRow → List AlbumItemRow
  | [] => []
  | x :: xs => insertAlbumItemSorted x (sortAlbumsItems xs)

/-- AlbumsModel.search_albums_items_meta: status filter on ai.status, optional
exact-match filters on the joined album and item cnames, ORDER BY album_id
ASC, media_id ASC, LIMIT and OFFSET. -/
def searchAlbumsItemsMeta (db : Db) (limit offset : Nat) (status : List String)
    (albumCname itemCname : Option String) : List AlbumItemJoined :=
  let rows := (sortAlbumsItems db.albumsItems).map (joinAlbumItem db)
  let rows := rows.filter (fun r =>
    statusMatch status r.status &&
    (if strTruthy albumCname then r.album_cname = some (albumCname.getD "") else true) &&
    (if strTruthy itemCname then r.item_cname = some (itemCname.getD "") else true))
  (rows.drop offset).take limit

/-- Field updates accepted by AlbumsModel.update_album_meta. -/
structure AlbumUpdate where
  name : Option String := none
  cname : Option String := none
  size : Option Int := none
  cover_photo_id : Option String := none
  status : Option String := none
  index_date : Option String := none
  last_checked : Option String := none
deriving Repr, DecidableEq

/-- Application of the SET clause of update_album_meta to one row. -/
def applyAlbumUpdate (u : AlbumUpdate) (r : AlbumRow) : AlbumRow :=
  { r with
    name := u.name.getD r.name, cname := u.cname.getD r.cname,
    size := u.size.getD r.size, cover_photo_id := u.cover_photo_id.getD r.cover_photo_id,
    status := u.status.getD r.status, index_date := u.index_date.getD r.index_date,
    last_checked := u.last_checked.getD r.last_checked }

/-- Effect of the UPDATE statement of update_album_meta on the table. -/
def updateAlbumRows (db : Db) (albumId : Nat) (u : AlbumUpdate) : Db :=
  { db with albums := db.albums.map (fun r =>
      if r.album_id = albumId then applyAlbumUpdate u r else r) }

/-- AlbumsModel.update_album_meta: raises on a missing album_id and on a
status outside the album enumeration before any SQL; commit=False. -/
def updateAlbumMeta (db : Db) (albumId : Nat) (u : AlbumUpdate) :
    Except String (Db × Nat) :=
  if albumId = 0 then
    .error "ValueError: Missing album_id"
  else if u.status.isSome && !(albumStatuses.contains (u.status.getD "")) then
    .error "ValueError: Invalid status"
  else
    let cnt := (db.albums.filter (fun r => r.album_id = albumId)).length
    .ok (updateAlbumRows db albumId u, min cnt 1)

/-- AlbumsModel.update_album_item_meta: only the status key is allowed; an
out-of-enumeration status raises before any SQL; commit=False. -/
def updateAlbumItemMeta (db : Db) (albumItemId : Nat) (status : Option String) :
    Except String (Db × Nat) :=
  if albumItemId = 0 then
    .error "ValueError: Missing album_item_id"
  else if status.isSome && !(itemStatuses.contains (status.getD "")) then
    .error "ValueError: Invalid status"
  else
    let cnt := (db.albumsItems.filter (fun r => r.album_item_id = albumItemId)).length
    .ok ({ db with albumsItems := db.albumsItems.map (fun r =>
            if r.album_item_id = albumItemId then
              { r with status := (status.getD r.status) }
            else r) },
         min cnt 1)

/-- AlbumsModel.set_albums_meta_stale: UPDATE albums SET status="stale" with
the last_checked cutoff added only when the parameter is truthy. -/
def setAlbumsMetaStale (db : Db) (lastChecked : Option String) : Db × Nat :=
  let cond : AlbumRow → Bool := fun r =>
    if strTruthy lastChecked then strLt r.last_checked (lastChecked.getD "") else true
  ({ db with albums := db.albums.map (fun r =>
      if cond r then { r with status := "stale" } else r) },
   (db.albums.filter cond).length)

/-- Effect of the UPDATE of set_albums_items_meta_stale: every membership row
of the given album becomes stale. -/
def setAlbumsItemsMetaStaleRows (db : Db) (albumId : Nat) : Db :=
  { db with albumsItems := db.albumsItems.map (fun r =>
      if r.album_id = albumId then { r with status := "stale" } else r) }

/-- AlbumsModel.set_albums_items_meta_stale: raises on a missing album_id,
otherwise marks every membership row of that album stale. -/
def setAlbumsItemsMetaStale (db : Db) (albumId : Nat) : Except String (Db × Nat) :=
  if albumId = 0 then
    .error "ValueError: Missing album_id"
  else
    .ok (setAlbumsItemsMetaStaleRows db albumId,
         (db.albumsItems.filter (fun r => r.album_id = albumId)).length)

/-- AlbumsModel.delete_album_meta (commit=False). -/
def deleteAlbumMeta (db : Db) (albumId : Nat) : Except String (Db × Nat) :=
  if albumId = 0 then
    .error "ValueError: Missing album_id"
  else
    let cnt := (db.albums.filter (fun r => r.album_id = albumId)).length
    .ok ({ db with albums := db.albums.filter (fun r => !(r.album_id = albumId)) },
         min cnt 1)

/-- AlbumsModel.delete_album_item_meta: the statement DELETE FROM albums_items
WHERE album_id=:album_id AND media_id=:media_id references the placeholders
album_id and media_id, but the function only binds album_item_id
(albums_model.py lines 345-351), so sqlite3 raises ProgrammingError (missing
binding) whenever the statement executes; no row is ever deleted. -/
def deleteAlbumItemMeta (_db : Db) (albumItemId : Nat) : Except String (Db × Nat) :=
  if albumItemId = 0 then
    .error "ValueError: Missing album_item_id"
  else
    .error "ProgrammingError: you did not supply a value for binding parameter album_id"

/-- Arguments of AlbumsModel.add_album_meta. -/
structure AlbumAdd where
  remote_id : String
  name : String
  cname : String
  size : Int
  cover_photo_id : String
  path : String
  index_date : String
  last_checked : String
  status : String
deriving Repr, DecidableEq

/-- Effect of the INSERT ... ON CONFLICT(remote_id) DO UPDATE SET size,
cover_photo_id, index_date, last_checked, status statement of add_album_meta.
A falsy status falls back to the literal "pending_sync" (which is not itself
in the album enumeration).  Runs with commit=False. -/
def addAlbumRows (db : Db) (a : AlbumAdd) : Db × Nat :=
  let st := if a.status = "" then "pending_sync" else a.status
  if (db.albums.find? (fun r => r.remote_id = a.remote_id)).isSome then
    ({ db with albums := db.albums.map (fun r =>
         if r.remote_id = a.remote_id then
           { r with size := a.size, cover_photo_id := a.cover_photo_id,
                    index_date := a.index_date, last_checked := a.last_checked,
                    status := st }
         else r) },
     db.nextAlbumId)
  else
    ({ db with
       albums := db.albums ++
         [{ album_id := db.nextAlbumId, remote_id := a.remote_id, name := a.name,
            cname := a.cname, size := a.size, cover_photo_id := a.cover_photo_id,
            path := a.path, index_date := a.index_date,
            last_checked := a.last_checked, status := st }]
       nextAlbumId := db.nextAlbumId + 1 },
     db.nextAlbumId)

/-- AlbumsModel.add_album_meta with its status guard in front of the upsert. -/
def addAlbumMeta (db : Db) (a : AlbumAdd) : Except String (Db × Nat) :=
  if !(a.status = "") && !(albumStatuses.contains a.status) then
    .error "ValueError: Invalid status"
  else
    .ok (addAlbumRows db a)

/-- AlbumsModel.add_album_item_meta: INSERT ... ON CONFLICT(album_id,
media_id) DO UPDATE SET status.  A falsy status falls back to the literal
"pending_sync".  Unlike every other mutation of the catalog, this function
performs no status validation at all: any status string is passed straight
through to storage (and the albums_items table carries no CHECK constraint),
so the function is total.  Runs with commit=False. -/
def addAlbumItemMeta (db : Db) (albumId mediaId : Nat) (status : String) :
    Db × Nat :=
  let st := if status = "" then "pending_sync" else status
  if (db.albumsItems.find? (fun r => r.album_id = albumId && r.media_id = mediaId)).isSome then
    ({ db with albumsItems := db.albumsItems.map (fun r =>
         if r.album_id = albumId && r.media_id = mediaId then
           { r with status := st }
         else r) },
     db.nextAlbumItemId)
  else
    ({ db with
       albumsItems := db.albumsItems ++
         [{ album_item_id := db.nextAlbumItemId, album_id := albumId,
            media_id := mediaId, status := st }]
       nextAlbumItemId := db.nextAlbumItemId + 1 },
     db.nextAlbumItemId)

/-- Upsert effect of the settings INSERT ... ON CONFLICT (key) DO UPDATE SET
value statement: key is the primary key of the settings table, so replacing
its first occurrence (or appending when absent) is the ON CONFLICT
behaviour. -/
def updateASetingRows : List (String × String) → String → String → List (String × String)
  | [], key, value => [(key, value)]
  | kv :: rest, key, value =>
    if kv.1 = key then (kv.1, value) :: rest
    else kv :: updateASetingRows rest key value

/-- SettingsModel.update_aseting: raises on a missing (falsy) key before any
SQL, otherwise upserts the key/value pair. -/
def updateASeting (settings : List (String × String)) (key value : String) :
    Except String (List (String × String)) :=
  if key = "" then
    .error "ValueError: key must be specified"
  else
    .ok (updateASetingRows settings key value)

/-- Character class [a-zA-Z0-9()_ -] kept by utils.transform_fs_safe. -/
def fsSafeChar (c : Char) : Bool :=
  c.isAlphanum || c = '-' || c = '_' || c = '(' || c = ')' || c = ' '

/-- Collapse of every run of underscores to a single underscore (the second
re.sub of transform_fs_safe). -/
def collapseUnderscores : List Char → List Char
  | [] => []
  | c :: rest =>
    match collapseUnderscores rest with
    | [] => [c]
    | d :: tail => if c = '_' && d = '_' then d :: tail else c :: d :: tail

/-- utils.transform_fs_safe: replace disallowed characters by underscores,
collapse underscore runs, strip leading and trailing underscores, truncate to
255 characters. -/
def transformFsSafe (fileName : String) : String :=
  let s1 := fileName.data.map (fun c => if fsSafeChar c then c else '_')
  let s2 := collapseUnderscores s1
  let s3 := ((s2.dropWhile (fun c => c = '_')).reverse.dropWhile (fun c => c = '_')).reverse
  String.mk (s3.take 255)

/-- Behaviour of os.path.splitext on a bare file name: split at the last dot,
except that a name whose characters before that dot are all dots (a hidden
file) keeps an empty extension. -/
def splitExt (s : String) : String × String :=
  let cs := s.data
  let k := cs.reverse.findIdx (fun c => c = '.')
  if k = cs.length then (s, "")
  else
    let pos := cs.length - 1 - k
    if (cs.take pos).all (fun c => c = '.') then (s, "")
    else (String.mk (cs.take pos), String.mk (cs.drop pos))

/-- Probing loop of MediaItems._get_canonicalized_name: while a row with this
cname exists in the destination directory, append a numeric suffix.  The fuel
argument bounds the iteration count; every iteration tries a strictly longer
name, so fuel exceeding the number of stored rows makes the bound
unreachable, exactly as the Python while-True loop always returns. -/
def getCanonicalizedNameLoop (db : Db) (path : String) :
    Nat → Nat → String → String
  | 0, _, fileName => fileName
  | fuel + 1, unique, fileName =>
    if searchMediaItemsMeta db 100 0 (some fileName) (some path) [] = [] then fileName
    else
      let (n, e) := splitExt fileName
      getCanonicalizedNameLoop db path fuel (unique + 1)
        (n ++ " (" ++ toString unique ++ ")" ++ e)

/-- MediaItems._get_canonicalized_name. -/
def getCanonicalizedName (db : Db) (fileName path : String) : String :=
  let (name, ext) := splitExt fileName
  getCanonicalizedNameLoop db path (db.mediaItems.length + 1) 1
    (transformFsSafe name ++ ext)

/-- Probing loop of Albums._get_canonicalized_name (no initial extension
split; probes the albums table). -/
def getCanonicalizedAlbumNameLoop (db : Db) (path : String) :
    Nat → Nat → String → String
  | 0, _, albumName => albumName
  | fuel + 1, unique, albumName =>
    if searchAlbumsMeta db 100 0 (some albumName) (some path) [] = [] then albumName
    else
      let (n, e) := splitExt albumName
      getCanonicalizedAlbumNameLoop db path fuel (unique + 1)
        (n ++ " (" ++ toString unique ++ ")" ++ e)

/-- Albums._get_canonicalized_name: a falsy title becomes "Untitled". -/
def getCanonicalizedAlbumName (db : Db) (albumName path : String) : String :=
  let base := if albumName = "" then "Untitled" else albumName
  getCanonicalizedAlbumNameLoop db path (db.albums.length + 1) 1 (transformFsSafe base)

/-- MediaItems._gen_path_by_cdate: items/YYYY/MM derived from the RFC3339
creation timestamp (YYYY-MM-DDTHH:MM:SSZ) of the remote item. -/
def genPathByCdate (creationTime : String) : String :=
  "items/" ++ creationTime.take 4 ++ "/" ++ ((creationTime.drop 5).take 2)

/-- Conversion of the RFC3339 creation timestamp to the stored DATETIME
format (strptime / strftime pair in MediaItems._add_item). -/
def apiDateToSql (creationTime : String) : String :=
  creationTime.take 10 ++ " " ++ ((creationTime.drop 11).take 8)

/-- Decoded media item of a listing reply, the fields the indexer reads.  The
API contract guarantees these fields are present, so the per-item KeyError
paths of the source are unreachable and not modelled. -/
structure GMediaItem where
  id : String
  filename : String
  mimeType : String
  creationTime : String
deriving Repr, DecidableEq

/-- One reply of the paged remote listing: either the decoded page (with
presence of a nextPageToken), or the listing call raising.  A falsy reply
(the `if not to_index: break` branch) is the page ok [] false. -/
inductive PageRes where
  | ok (items : List GMediaItem) (hasNext : Bool)
  | err (msg : String)
deriving Repr, DecidableEq

/-- Per-phase counters of ActionStats as used by the index passes. -/
structure IdxStats where
  indexed : Nat
  skipped : Nat
  failed : Nat
deriving Repr, DecidableEq

/-- MediaItems._index_needed: a missing row, or a status outside
synced / pending_sync / ignored, forces (re)indexing. -/
def mediaIndexNeeded (meta : Option MediaItemRow) (_item : GMediaItem) : Bool :=
  match meta with
  | none => true
  | some m => !(["synced", "pending_sync", "ignored"].contains m.status)

/-- MediaItems._add_item: derive the destination path from the creation date,
disambiguate the canonical name, and upsert the row with status
pending_sync.  The status literal is inside the enumeration, so the
add_media_item_meta guard cannot fire and the Rows core is called. -/
def addItem (db : Db) (now : String) (item : GMediaItem) : Db × Nat :=
  let path := genPathByCdate item.creationTime
  let cname := getCanonicalizedName db item.filename path
  let createDate := apiDateToSql item.creationTime
  addMediaItemRows db
    { remote_id := item.id, name := item.filename, cname := cname,
      mime_type := item.mimeType, create_date := createDate,
      modify_date := createDate, path := path, index_date := now,
      last_checked := now, status := "pending_sync" }

/-- MediaItems.index_item: look the row up by remote_id; when no reindex is
needed only bump last_checked (the guards of update_media_item_meta hold:
the key is allowed and the media_id comes from a stored row); otherwise add
the item.  Returns the db, the advanced clock tick and the reported status
string. -/
def indexItem (clock : Nat → String) (db : Db) (tick : Nat) (item : GMediaItem) :
    Db × Nat × String :=
  let mm := getMediaItemMetaByRemoteId db item.id
  if mediaIndexNeeded mm item then
    let (db1, _) := addItem db (clock tick) item
    (db1, tick + 1, "indexed")
  else
    let mid := (mm.map (fun m => m.media_id)).getD 0
    (updateMediaItemRows db mid { last_checked := some (clock tick) }, tick + 1, "skipped")

/-- Per-page item loop of MediaItems.index_items.  indexItem is total (its
raising paths need a malformed payload, excluded by the API contract), so the
except-branch of the source that would count a failure is unreachable and
failed is never incremented. -/
def indexPage (clock : Nat → String) : List GMediaItem → Db → Nat → IdxStats →
    Db × Nat × IdxStats
  | [], db, tick, s => (db, tick, s)
  | item :: rest, db, tick, s =>
    let (db1, tick1, st) := indexItem clock db tick item
    if st = "indexed" then
      indexPage clock rest db1 tick1 { s with indexed := s.indexed + 1 }
    else
      indexPage clock rest db1 tick1 { s with skipped := s.skipped + 1 }

/-- Page loop of MediaItems.index_items: each page is processed then
committed; a listing reply that raises propagates out of index_items with the
database state reached so far (embedded as the error value); a reply without
nextPageToken ends the loop normally. -/
def indexItemsLoop (clock : Nat → String) :
    List PageRes → Db → Nat → IdxStats → Except (Db × IdxStats) (Db × Nat × IdxStats)
  | [], db, tick, s => .ok (db, tick, s)
  | .err _ :: _, db, _, s => .error (db, s)
  | .ok items hasNext :: rest, db, tick, s =>
    let (db1, tick1, s1) := indexPage clock items db tick s
    if hasNext then indexItemsLoop clock rest db1 tick1 s1 else .ok (db1, tick1, s1)

/-- MediaItems.index_items: check_date is read from the clock at entry; after
the page loop ends normally and rescan is set, every row whose last_checked
predates check_date is marked stale (set_media_items_stale); when a listing
reply raises, the exception propagates and the stale marking never runs.
The last_index date filter only narrows which pages the remote API returns
and is part of the pages input. -/
def indexItems (clock : Nat → String) (tick0 : Nat) (db : Db) (pages : List PageRes)
    (rescan : Bool) : Except (Db × IdxStats) (Db × Nat × IdxStats) :=
  let checkDate := clock tick0
  match indexItemsLoop clock pages db (tick0 + 1) { indexed := 0, skipped := 0, failed := 0 } with
  | .error e => .error e
  | .ok (db1, tick1, s1) =>
    if rescan then .ok ((setMediaItemsStale db1 (some checkDate)).1, tick1, s1)
    else .ok (db1, tick1, s1)

/-- One file (or link) below the library destination directory: its directory
relative to the destination root, its file name, and its modification time.
The constant dest_path prefix of every os.path.join is dropped. -/
structure FsFile where
  dir : String
  name : String
  mtime : String
deriving Repr, DecidableEq

/-- The filesystem below the destination root. -/
abbrev Fs := List FsFile

/-- Existence check os.path.isfile(os.path.join(dest, dir, name)). -/
def fileExists (fs : Fs) (dir name : String) : Bool :=
  fs.any (fun f => f.dir = dir && f.name = name)

/-- MediaItems._item_exists_fs. -/
def itemExistsFs (fs : Fs) (r : MediaItemRow) : Bool :=
  fileExists fs r.path r.cname

/-- Inner per-page loop of MediaItems.scan_synced_items_fs: every row of the
page whose backing file is missing is reset to pending_sync (the status
literal is valid, the media_id comes from a stored row, so
update_media_item_meta cannot raise); the second component counts the fixed
rows of this page. -/
def scanFixPage (fs : Fs) : List MediaItemRow → Db → Nat → Db × Nat
  | [], db, k => (db, k)
  | r :: rest, db, k =>
    if itemExistsFs fs r then scanFixPage fs rest db k
    else scanFixPage fs rest
      (updateMediaItemRows db r.media_id { status := some "pending_sync" }) (k + 1)

theorem updateMediaItemRows_length (db : Db) (mid : Nat) (u : MediaItemUpdate) :
    (updateMediaItemRows db mid u).mediaItems.length = db.mediaItems.length := by
  simp [updateMediaItemRows]

theorem scanFixPage_length (fs : Fs) (rows : List MediaItemRow) :
    ∀ db k, ((scanFixPage fs rows db k).1).mediaItems.length = db.mediaItems.length := by
  induction rows with
  | nil => intro db k; simp [scanFixPage]
  | cons r rest ih =>
    intro db k
    by_cases h : itemExistsFs fs r = true
    · simp [scanFixPage, h, ih]
    · simp only [scanFixPage, Bool.not_eq_true] at h ⊢
      simp [h, ih, updateMediaItemRows_length]

theorem searchMediaItemsMeta_ne_nil_offset_lt {db : Db} {limit offset : Nat}
    {cname path : Option String} {status : List String}
    (h : searchMediaItemsMeta db limit offset cname path status ≠ []) :
    offset < db.mediaItems.length := by
  simp only [searchMediaItemsMeta] at h
  by_contra hle
  push_neg at hle
  rw [List.drop_eq_nil_of_le (le_trans (List.length_filter_le _ _) hle)] at h
  simp at h

/-- Page loop of MediaItems.scan_synced_items_fs: search one page of synced
rows, fix the missing ones, commit and advance the offset by the page size
(regardless of how many rows just left the synced result set).  The fuel
only bounds the iteration count: the offset grows by 100 per iteration while
the filtered row count never grows (scanFixPage preserves the table length),
so rowCount + 2 iterations always reach the empty page, exactly as the
Python while-True loop always breaks. -/
def scanSyncedLoop (fs : Fs) : Nat → Db → Nat → Nat → Db × Nat
  | 0, db, _, fixed => (db, fixed)
  | fuel + 1, db, offset, fixed =>
    let toCheck := searchMediaItemsMeta db 100 offset none none ["synced"]
    if toCheck = [] then (db, fixed)
    else
      let p := scanFixPage fs toCheck db fixed
      scanSyncedLoop fs fuel p.1 (offset + 100) p.2

/-- MediaItems.scan_synced_items_fs: nothing to do when no row is synced,
otherwise run the page loop from offset 0 with ample fuel.  Returns the
database and the fixed counter of the returned ActionStats. -/
def scanSyncedItemsFs (fs : Fs) (db : Db) : Db × Nat :=
  if getMediaItemsMetaCnt db ["synced"] = 0 then (db, 0)
  else scanSyncedLoop fs (db.mediaItems.length + 2) db 0 0

/-- Per-item reply of mediaItems:batchGet as consumed by _get_items_to_sync,
plus the download outcome oracle: a batch element either carries an error
message or the media item payload (baseUrl, video readiness); downloadOk
tells whether the byte download of this item would succeed (network and
content-length verification combined).  A failed download never leaves a
file at the destination (the temp file lives outside the library tree and is
removed on a length mismatch). -/
structure SyncedMediaItem where
  errorMsg : Option String
  baseUrl : Option String
  videoStatus : Option String
  downloadOk : Bool
deriving Repr, DecidableEq

/-- First slash-separated component of the stored MIME type, as computed by
mime_type.split("/")[0] in _sync_item. -/
def mimeTypeMain (s : String) : String :=
  String.mk (s.data.takeWhile (fun c => !(c = '/')))

/-- Download-and-move tail of MediaItems._sync_item: on success the temp file
is moved onto the destination (shutil.move overwrites) and os.utime sets its
modification time to the recorded modify_date; on failure the filesystem
below the library root is unchanged. -/
def downloadMove (fs : Fs) (meta : MediaItemRow) (item : SyncedMediaItem) :
    Fs × Except String String :=
  if item.downloadOk then
    (fs.filter (fun g => !(g.dir = meta.path && g.name = meta.cname)) ++
       [{ dir := meta.path, name := meta.cname, mtime := meta.modify_date }],
     .ok "synced")
  else (fs, .error "MediaItemDownloadError")

/-- MediaItems._sync_item: batch errors, a missing baseUrl and a non-ready
video raise; an ignored row short-circuits; an existing file is kept exactly
when its mtime equals the recorded modify_date (else it is removed and
re-downloaded).  The pair is the filesystem after the task and its outcome
(the raising paths are the error case, as collected by the task wrapper). -/
def syncItem (fs : Fs) (meta : MediaItemRow) (item : SyncedMediaItem) :
    Fs × Except String String :=
  match item.errorMsg with
  | some e => (fs, .error ("ValueError: " ++ e))
  | none =>
    match item.baseUrl with
    | none => (fs, .error "ValueError: Missing download_url")
    | some _ =>
      if meta.status = "ignored" then (fs, .ok "ignored")
      else
        let mediaType := mimeTypeMain meta.mime_type
        if mediaType = "video" && !(item.videoStatus = some "READY") then
          (fs, .error "ValueError: Video is not ready")
        else
          match fs.find? (fun f => f.dir = meta.path && f.name = meta.cname) with
          | some f =>
            if f.mtime = meta.modify_date then (fs, .ok "skipped")
            else
              downloadMove (fs.filter (fun g => !(g.dir = meta.path && g.name = meta.cname)))
                meta item
          | none => downloadMove fs meta item

/-- Status written back by _sync_items_concurrently (and the identical loop
of _sync_album_items_concurrently) for one task outcome: an exception becomes
sync_error, synced and skipped are rolled up as synced, anything else
(ignored) is stored as is. -/
def syncTaskStatusUpd : Except String String → String
  | .error _ => "sync_error"
  | .ok st => if st = "synced" || st = "skipped" then "synced" else st

/-- Albums._sync_album_item: missing joined cnames or a media item that is
neither synced nor ignored raise; an ignored media item short-circuits; a
missing source file raises; an existing link is kept; otherwise a symlink or
hard link to the media item file is created under the album directory (both
branches create the same directory entry in this model). -/
def syncAlbumItem (fs : Fs) (m : AlbumItemJoined) (_useSymlinks : Bool) :
    Fs × Except String String :=
  if !(strTruthy m.item_cname) || !(strTruthy m.album_cname) then
    (fs, .error "ValueError: Missing meta for album item")
  else if !(["synced", "ignored"].contains (m.item_status.getD "")) then
    (fs, .error "ValueError: media item is not synced")
  else if m.item_status = some "ignored" then (fs, .ok "ignored")
  else
    let srcDir := m.item_path.getD ""
    let destDir := (m.album_path.getD "") ++ "/" ++ (m.album_cname.getD "")
    let nm := m.item_cname.getD ""
    if !(fileExists fs srcDir nm) then (fs, .error "ValueError: missing source file")
    else if fileExists fs destDir nm then (fs, .ok "skipped")
    else (fs ++ [{ dir := destDir, name := nm, mtime := "" }], .ok "synced")

/-- Decoded album of an albums_list reply. -/
structure GAlbum where
  id : String
  title : String
  mediaItemsCount : Int
  coverPhotoMediaItemId : String
deriving Repr, DecidableEq

/-- One reply of the paged album listing. -/
inductive AlbumPageRes where
  | ok (albums : List GAlbum) (hasNext : Bool)
  | err (msg : String)
deriving Repr, DecidableEq

/-- Albums._index_needed: a missing row forces indexing; otherwise the source
first counts the non-stale membership rows via
get_albums_items_meta_cnt(album_id=..., status_not=["stale"]), which always
raises TypeError (see getAlbumsItemsMetaCnt), so the comparison of status,
persisted size, remote count and local count below it is dead code; it is
nevertheless embedded faithfully after the bind. -/
def albumIndexNeeded (db : Db) (meta : Option AlbumRow) (album : GAlbum) :
    Except String Bool :=
  match meta with
  | none => .ok true
  | some m =>
    match getAlbumsItemsMetaCnt db [] ["stale"] (some m.album_id) with
    | .error e => .error e
    | .ok cnt =>
      let synced := ["indexed"].contains m.status
      let sameSize := m.size = album.mediaItemsCount && album.mediaItemsCount = (cnt : Int)
      .ok (!synced || !sameSize)

/-- Albums._add_album: canonicalize the title below the albums directory and
upsert the row with status indexed (a valid literal, so the add_album_meta
guard cannot fire). -/
def addAlbum (db : Db) (now : String) (album : GAlbum) : Db × Nat :=
  let path := "albums"
  let cname := getCanonicalizedAlbumName db album.title path
  addAlbumRows db
    { remote_id := album.id, name := album.title, cname := cname,
      size := album.mediaItemsCount, cover_photo_id := album.coverPhotoMediaItemId,
      path := path, index_date := now, last_checked := now, status := "indexed" }

/-- Page loop of Albums.index_album_items: every listed media item is first
ensured indexed through MediaItems.index_item (with its default commit), then
upserted as a membership row with status pending_sync; a raising listing
reply propagates with the state reached so far. -/
def indexAlbumItemsLoop (clock : Nat → String) (albumId : Nat) :
    List PageRes → Db → Nat → Nat → Except (Db × Nat) (Db × Nat × Nat)
  | [], db, tick, n => .ok (db, tick, n)
  | .err _ :: _, db, tick, _ => .error (db, tick)
  | .ok items hasNext :: rest, db, tick, n =>
    let (db1, tick1, n1) := items.foldl
      (fun acc it =>
        let (dbA, tickA, nA) := acc
        let (dbB, tickB, _st) := indexItem clock dbA tickA it
        let mim := getMediaItemMetaByRemoteId dbB it.id
        let mid := (mim.map (fun m => m.media_id)).getD 0
        ((addAlbumItemMeta dbB albumId mid "pending_sync").1, tickB, nA + 1))
      (db, tick, n)
    if hasNext then indexAlbumItemsLoop clock albumId rest db1 tick1 n1
    else .ok (db1, tick1, n1)

/-- Albums.index_album_items: mark the existing membership of the album stale
(the album_id comes from a stored row, so set_albums_items_meta_stale cannot
raise), then walk the album item listing. -/
def indexAlbumItems (clock : Nat → String) (db : Db) (tick : Nat) (albumId : Nat)
    (pages : List PageRes) : Except (Db × Nat) (Db × Nat × Nat) :=
  indexAlbumItemsLoop clock albumId pages (setAlbumsItemsMetaStaleRows db albumId) tick 0

/-- Albums.index_album: filtered-out albums are skipped; the rename check
only logs; _index_needed raising propagates (with the database untouched);
when no reindex is needed only last_checked is bumped; otherwise the album is
upserted and its items indexed, a failure there downgrading the album to
index_error before re-raising. -/
def indexAlbum (clock : Nat → String) (db : Db) (tick : Nat) (album : GAlbum)
    (filterAlbums : List String) (itemPages : List PageRes) :
    Except (Db × Nat) (Db × Nat × String) :=
  let meta := getAlbumMetaByRemoteId db album.id
  if !filterAlbums.isEmpty && !(filterAlbums.contains album.title) then
    .ok (db, tick, "skipped")
  else
    match albumIndexNeeded db meta album with
    | .error _ => .error (db, tick)
    | .ok needed =>
      if !needed then
        let aid := (meta.map (fun m => m.album_id)).getD 0
        .ok (updateAlbumRows db aid { last_checked := some (clock tick) }, tick + 1, "skipped")
      else
        let (db1, _) := addAlbum db (clock tick) album
        let tick1 := tick + 1
        let meta1 := getAlbumMetaByRemoteId db1 album.id
        let aid := (meta1.map (fun m => m.album_id)).getD 0
        match indexAlbumItems clock db1 tick1 aid itemPages with
        | .error (db2, tick2) =>
          .error (updateAlbumRows db2 aid { status := some "index_error" }, tick2)
        | .ok (db2, tick2, _n) => .ok (db2, tick2, "indexed")

/-- Per-page album loop of Albums.index_albums: each album is indexed inside
a try block, an exception (the error value of indexAlbum, carrying the state
reached) is counted as failed and the loop continues. -/
def indexAlbumsPage (clock : Nat → String) (itemPagesOf : String → List PageRes)
    (filterAlbums : List String) (albums : List GAlbum) (db : Db) (tick : Nat)
    (s : IdxStats) : Db × Nat × IdxStats :=
  albums.foldl
    (fun acc album =>
      let (dbA, tickA, sA) := acc
      match indexAlbum clock dbA tickA album filterAlbums (itemPagesOf album.id) with
      | .error (dbB, tickB) => (dbB, tickB, { sA with failed := sA.failed + 1 })
      | .ok (dbB, tickB, st) =>
        if st = "indexed" then (dbB, tickB, { sA with indexed := sA.indexed + 1 })
        else (dbB, tickB, { sA with skipped := sA.skipped + 1 }))
    (db, tick, s)

/-- Page loop of Albums.index_albums over the album listing. -/
def indexAlbumsLoop (clock : Nat → String) (itemPagesOf : String → List PageRes)
    (filterAlbums : List String) :
    List AlbumPageRes → Db → Nat → IdxStats → Except (Db × IdxStats) (Db × Nat × IdxStats)
  | [], db, tick, s => .ok (db, tick, s)
  | .err _ :: _, db, _, s => .error (db, s)
  | .ok albums hasNext :: rest, db, tick, s =>
    let (db1, tick1, s1) := indexAlbumsPage clock itemPagesOf filterAlbums albums db tick s
    if hasNext then indexAlbumsLoop clock itemPagesOf filterAlbums rest db1 tick1 s1
    else .ok (db1, tick1, s1)

theorem searchAlbumsMeta_ne_nil_offset_lt {db : Db} {limit offset : Nat}
    {cname path : Option String} {status : List String}
    (h : searchAlbumsMeta db limit offset cname path status ≠ []) :
    offset < db.albums.length := by
  simp only [searchAlbumsMeta] at h
  by_contra hle
  push_neg at hle
  rw [List.drop_eq_nil_of_le (le_trans (List.length_filter_le _ _) hle)] at h
  simp at h

theorem setAlbumsItemsMetaStaleRows_albums (db : Db) (aid : Nat) :
    (setAlbumsItemsMetaStaleRows db aid).albums = db.albums := by
  simp [setAlbumsItemsMetaStaleRows]

theorem propagate_fold_albums (rows : List AlbumRow) :
    ∀ db : Db, (rows.foldl (fun d a => setAlbumsItemsMetaStaleRows d a.album_id) db).albums
      = db.albums := by
  induction rows with
  | nil => intro db; simp
  | cons a rest ih => intro db; simp [ih, setAlbumsItemsMetaStaleRows_albums]

/-- Page loop of Albums._propagate_stale_albums: for every stale album, mark
its membership rows stale; the offset advances by the page size (the stale
album set is not changed by the inner updates, so the paging here is
complete).  The fuel only bounds the iteration count, which the growing
offset over the unchanged albums table caps at albumCount + 2. -/
def propagateStaleLoop : Nat → Db → Nat → Db
  | 0, db, _ => db
  | fuel + 1, db, offset =>
    let toProp := searchAlbumsMeta db 100 offset none none ["stale"]
    if toProp = [] then db
    else
      propagateStaleLoop fuel
        (toProp.foldl (fun d a => setAlbumsItemsMetaStaleRows d a.album_id) db) (offset + 100)

/-- Albums._propagate_stale_albums. -/
def propagateStaleAlbums (db : Db) : Db :=
  if getAlbumsMetaCnt db ["stale"] = 0 then db
  else propagateStaleLoop (db.albums.length + 2) db 0

/-- Albums.index_albums: rescan is forced to True in the source; check_date
is read at entry; after a listing pass that ends normally and with no album
filter, albums whose last_checked predates check_date are marked stale and
the staleness is propagated to their membership rows; a raising listing
reply propagates and no stale marking happens. -/
def indexAlbums (clock : Nat → String) (tick0 : Nat) (db : Db)
    (pages : List AlbumPageRes) (itemPagesOf : String → List PageRes)
    (filterAlbums : List String) : Except (Db × IdxStats) (Db × Nat × IdxStats) :=
  let checkDate := clock tick0
  match indexAlbumsLoop clock itemPagesOf filterAlbums pages db (tick0 + 1)
      { indexed := 0, skipped := 0, failed := 0 } with
  | .error e => .error e
  | .ok (db1, tick1, s1) =>
    if filterAlbums.isEmpty then
      let db2 := (setAlbumsMetaStale db1 (some checkDate)).1
      .ok (propagateStaleAlbums db2, tick1, s1)
    else .ok (db1, tick1, s1)

/-- Albums._delete_album_item_file: raises when the joined cnames are
missing; otherwise removes the link file when it exists (a missing file is
only logged). -/
def deleteAlbumItemFile (fs : Fs) (m : AlbumItemJoined) : Except String Fs :=
  if !(strTruthy m.item_cname) || !(strTruthy m.album_cname) then
    .error "ValueError: Missing meta for album item"
  else
    let dir := (m.album_path.getD "") ++ "/" ++ (m.album_cname.getD "")
    let nm := m.item_cname.getD ""
    .ok (fs.filter (fun f => !(f.dir = dir && f.name = nm)))

/-- Page loop of Albums._delete_obsolete_albums_items_db: for each stale
membership row, delete its link file, then its database row; an exception in
either step advances the offset by one and counts a failure.  Because
delete_album_item_meta always raises (see its definition), every row fails
and no row is ever deleted.  The fuel bounds the loop iterations; the Python
loop terminates because each iteration either deletes rows or advances the
offset past them, and every theorem below instantiates ample fuel. -/
def deleteObsoleteAlbumsItemsDbLoop (fs : Fs) (db : Db) (offset del fail : Nat) :
    Nat → Fs × Db × Nat × Nat
  | 0 => (fs, db, del, fail)
  | fuel + 1 =>
    let toDelete := searchAlbumsItemsMeta db 100 offset ["stale"] none none
    if toDelete = [] then (fs, db, del, fail)
    else
      let step := toDelete.foldl
        (fun acc m =>
          let (fsA, dbA, offA, delA, failA) := acc
          match deleteAlbumItemFile fsA m with
          | .error _ => (fsA, dbA, offA + 1, delA, failA + 1)
          | .ok fsB =>
            match deleteAlbumItemMeta dbA m.album_item_id with
            | .error _ => (fsB, dbA, offA + 1, delA, failA + 1)
            | .ok (dbB, _) => (fsB, dbB, offA, delA + 1, failA))
        (fs, db, offset, del, fail)
      deleteObsoleteAlbumsItemsDbLoop step.1 step.2.1 step.2.2.1 step.2.2.2.1 step.2.2.2.2 fuel

/-- Albums._delete_obsolete_albums_items_db: nothing to do without stale
membership rows, otherwise run the page loop.  Returns the filesystem, the
database and the deleted / failed counters. -/
def deleteObsoleteAlbumsItemsDb (fs : Fs) (db : Db) (fuel : Nat) : Fs × Db × Nat × Nat :=
  if albumsItemsCntRows db ["stale"] none = 0 then (fs, db, 0, 0)
  else deleteObsoleteAlbumsItemsDbLoop fs db 0 0 0 fuel

/-- Two-level view of Storage: the current connection state (including the
open transaction) and the committed, durable state.  Storage.execute runs the
statement on the connection and then, in its finally block, calls
self._conn.commit() unless the caller passed commit=False. -/
structure Store where
  cur : Db
  comm : Db
deriving Repr, DecidableEq

/-- Storage.execute: apply the statement, then commit unless commit=False.  A
SELECT is passed as the identity statement: its execute still commits any
pending transaction. -/
def storeExec (st : Store) (f : Db → Db) (commit : Bool) : Store :=
  let cur1 := f st.cur
  { cur := cur1, comm := if commit then cur1 else st.comm }

/-- Storage.commit / model.commit. -/
def storeCommit (st : Store) : Store :=
  { cur := st.cur, comm := st.cur }

/-- MediaItems.index_item at the Storage level, with the commit flag of each
executed statement made explicit: get_item_meta is a SELECT through
Storage.execute with the default commit=True, so it commits any pending
transaction; update_media_item_meta runs with commit=False;
add_media_item_meta runs with the default commit=True, so the insert of an
indexed item is committed immediately; the commit parameter of index_item
itself (False throughout index_items pages) only controls the extra
model.commit() after an add. -/
def indexItemStore (clock : Nat → String) (st : Store) (tick : Nat) (item : GMediaItem)
    (commit : Bool) : Store × Nat × String :=
  let st0 := storeExec st (fun d => d) true
  let mm := getMediaItemMetaByRemoteId st0.cur item.id
  if mediaIndexNeeded mm item then
    let st1 := storeExec st0 (fun d => (addItem d (clock tick) item).1) true
    let st2 := if commit then storeCommit st1 else st1
    (st2, tick + 1, "indexed")
  else
    let mid := (mm.map (fun m => m.media_id)).getD 0
    let st1 := storeExec st0
      (fun d => updateMediaItemRows d mid { last_checked := some (clock tick) }) false
    (st1, tick + 1, "skipped")

/-- Settings lookup (settings.get(key)). -/
def settingsGet (settings : List (String × String)) (key : String) : Option String :=
  (settings.find? (fun kv => kv.1 = key)).map (fun kv => kv.2)

/-- Watermark decision of UsBackupGPhotosIdentity.index (identity.py lines
69-71 and 90-92): when the returned ActionStats is truthy (total nonzero)
and indexed is nonzero and failed is zero, the watermark key is upserted to
the timestamp taken just before the pass started. -/
def watermarkAdvance (settings : List (String × String)) (key sdate : String)
    (s : IdxStats) : List (String × String) :=
  if s.indexed + s.skipped + s.failed ≠ 0 then
    if s.indexed ≠ 0 && s.failed = 0 then updateASetingRows settings key sdate
    else settings
  else settings

/-- Media-items branch of UsBackupGPhotosIdentity.index: mi_sdate is read
before the pass; the stored last_index only narrows the listing (part of the
pages input); after the pass the watermark decision runs on the returned
stats.  A raising listing propagates out of index (no watermark update). -/
def identityIndexMediaItems (clock : Nat → String) (tick0 : Nat)
    (settings : List (String × String)) (db : Db) (pages : List PageRes)
    (rescan : Bool) :
    Except (Db × IdxStats) (List (String × String) × Db × Nat × IdxStats) :=
  let sdate := clock tick0
  match indexItems clock (tick0 + 1) db pages rescan with
  | .error e => .error e
  | .ok (db1, tick1, s1) =>
    .ok (watermarkAdvance settings "media_items_last_index" sdate s1, db1, tick1, s1)

/-- Albums branch of UsBackupGPhotosIdentity.index, same shape as the
media-items branch with the albums_last_index key. -/
def identityIndexAlbums (clock : Nat → String) (tick0 : Nat)
    (settings : List (String × String)) (db : Db) (pages : List AlbumPageRes)
    (itemPagesOf : String → List PageRes) (filterAlbums : List String) :
    Except (Db × IdxStats) (List (String × String) × Db × Nat × IdxStats) :=
  let sdate := clock tick0
  match indexAlbums clock (tick0 + 1) db pages itemPagesOf filterAlbums with
  | .error e => .error e
  | .ok (db1, tick1, s1) =>
    .ok (watermarkAdvance settings "albums_last_index" sdate s1, db1, tick1, s1)

/-- Shared example-row builder for media items. -/
def mkMedia (id : Nat) (rid st lc : String) : MediaItemRow :=
  { media_id := id, remote_id := rid, name := "n", cname := "c" ++ toString id,
    mime_type := "image/jpeg", create_date := "2024-01-01 00:00:00",
    modify_date := "2024-01-01 00:00:00", path := "items/2024/01",
    index_date := lc, last_checked := lc, status := st }

/-- Example database for the bulk-staleness claim: rows in several statuses. -/
def c10Db : Db :=
  { mediaItems := [mkMedia 1 "A" "synced" "t1", mkMedia 2 "B" "ignored" "t2"],
    albums := [{ album_id := 1, remote_id := "AL", name := "Trip", cname := "Trip",
                 size := 2, cover_photo_id := "", path := "albums",
                 index_date := "t1", last_checked := "t1", status := "indexed" }],
    albumsItems := [], nextMediaId := 3, nextAlbumId := 2, nextAlbumItemId := 1 }

/-- C10: calling the bulk staleness primitive with no last_checked cutoff
(None or the empty string, both falsy in Python) omits the cutoff condition
from the WHERE clause, so every row of the table is set to status stale
regardless of its current status - for media_items and for albums alike. -/
theorem setStaleNoCutoffMarksAll (db : Db) (lc : Option String)
    (h : lc = none ∨ lc = some "") :
    (∀ r ∈ (setMediaItemsStale db lc).1.mediaItems, r.status = "stale") ∧
    (∀ a ∈ (setAlbumsMetaStale db lc).1.albums, a.status = "stale") := by
  have hcond : strTruthy lc = false := by
    rcases h with h | h <;> simp [h, strTruthy]
  constructor
  · intro r hr
    simp only [setMediaItemsStale, hcond, Bool.false_eq_true, if_false] at hr
    rcases List.mem_map.mp hr with ⟨t, _, rfl⟩
    rfl
  · intro a ha
    simp only [setAlbumsMetaStale, hcond, Bool.false_eq_true, if_false] at ha
    rcases List.mem_map.mp ha with ⟨t, _, rfl⟩
    rfl

/-- Witness for C10 at a concrete database and a None cutoff. -/
theorem setStaleNoCutoffMarksAll_witness :
    ((none : Option String) = none ∨ (none : Option String) = some "") ∧
    (∀ r ∈ (setMediaItemsStale c10Db none).1.mediaItems, r.status = "stale") :=
  ⟨Or.inl rfl, (setStaleNoCutoffMarksAll c10Db none (Or.inl rfl)).1⟩

/-- C9 counterexample: AlbumsModel.add_album_item_meta accepts a status
string far outside the albums_items enumeration without raising - the row
reaches storage carrying it. -/
theorem addAlbumItemMetaAcceptsInvalidStatus :
    ((addAlbumItemMeta Db.empty 1 1 "bogus").1.albumsItems.map (fun r => r.status))
      = ["bogus"] := by
  rfl

/-- C9 amended, per entity: update_media_item_meta, add_media_item_meta (for
a truthy status) and update_album_item_meta raise before any SQL reaches
storage whenever the status string lies outside the media-item / album-item
enumeration; update_album_meta and add_album_meta (for a truthy status) do
the same against the album enumeration; add_album_item_meta alone performs
no status validation and writes any truthy status string through to
storage. -/
theorem catalogStatusValidationAmended (db : Db) :
    (∀ s : String, s ∉ itemStatuses →
      (∀ mid u, u.status = some s → ∃ e, updateMediaItemMeta db mid u = .error e) ∧
      (s ≠ "" → ∀ a : MediaItemAdd, a.status = s → ∃ e, addMediaItemMeta db a = .error e) ∧
      (∀ iid, ∃ e, updateAlbumItemMeta db iid (some s) = .error e)) ∧
    (∀ s : String, s ∉ albumStatuses →
      (∀ aid u, u.status = some s → ∃ e, updateAlbumMeta db aid u = .error e) ∧
      (s ≠ "" → ∀ a : AlbumAdd, a.status = s → ∃ e, addAlbumMeta db a = .error e)) ∧
    (∀ s : String, s ≠ "" → ∀ aid mid,
      ∃ r ∈ (addAlbumItemMeta db aid mid s).1.albumsItems, r.status = s) := by
  refine ⟨?_, ?_, ?_⟩
  · intro s hs
    refine ⟨?_, ?_, ?_⟩
    · intro mid u hu
      by_cases hm : mid = 0
      · exact ⟨"ValueError: Missing media_id", by simp [updateMediaItemMeta, hm]⟩
      · exact ⟨"ValueError: Invalid status", by simp [updateMediaItemMeta, hm, hu, hs]⟩
    · intro hne a haa
      exact ⟨"ValueError: Invalid status", by simp [addMediaItemMeta, haa, hs, hne]⟩
    · intro iid
      by_cases hm : iid = 0
      · exact ⟨"ValueError: Missing album_item_id", by simp [updateAlbumItemMeta, hm]⟩
      · exact ⟨"ValueError: Invalid status", by simp [updateAlbumItemMeta, hm, hs]⟩
  · intro s ha
    refine ⟨?_, ?_⟩
    · intro aid u hu
      by_cases hm : aid = 0
      · exact ⟨"ValueError: Missing album_id", by simp [updateAlbumMeta, hm]⟩
      · exact ⟨"ValueError: Invalid status", by simp [updateAlbumMeta, hm, hu, ha]⟩
    · intro hne a haa
      exact ⟨"ValueError: Invalid status", by simp [addAlbumMeta, haa, ha, hne]⟩
  · intro s hne aid mid
    simp only [addAlbumItemMeta, if_neg hne]
    cases hf : db.albumsItems.find? (fun r => r.album_id = aid && r.media_id = mid) with
    | some t =>
      refine ⟨{ t with status := s }, ?_, rfl⟩
      simp only [hf, Option.isSome_some, if_true]
      refine List.mem_map.mpr ⟨t, List.mem_of_find?_eq_some hf, ?_⟩
      have hp := List.find?_some hf
      simp [hp]
    | none =>
      refine ⟨{ album_item_id := db.nextAlbumItemId, album_id := aid,
                media_id := mid, status := s }, ?_, rfl⟩
      simp [hf]

/-- Witness for the amended C9 at the two symmetric-difference statuses: the
album status "indexed" is rejected by the media-item update, and the item
status "synced" is rejected by the album update. -/
theorem catalogStatusValidationAmended_witness :
    ("indexed" ∉ itemStatuses) ∧
    (∃ e, updateMediaItemMeta Db.empty 7 { status := some "indexed" } = .error e) ∧
    ("synced" ∉ albumStatuses) ∧
    (∃ e, updateAlbumMeta Db.empty 7 { status := some "synced" } = .error e) :=
  ⟨by decide,
   ((catalogStatusValidationAmended Db.empty).1 "indexed" (by decide)).1 7
     { status := some "indexed" } rfl,
   by decide,
   ((catalogStatusValidationAmended Db.empty).2.1 "synced" (by decide)).1 7
     { status := some "synced" } rfl⟩

/-- Concrete album row and remote album for the index-needed claims. -/
def c4AlbumRow : AlbumRow :=
  { album_id := 1, remote_id := "AL", name := "Trip", cname := "Trip",
    size := 2, cover_photo_id := "", path := "albums",
    index_date := "2024-01-01 00:00:00", last_checked := "2024-01-01 00:00:00",
    status := "indexed" }

def c4Db : Db :=
  { mediaItems := [], albums := [c4AlbumRow], albumsItems := [],
    nextMediaId := 1, nextAlbumId := 2, nextAlbumItemId := 1 }

def c4Album : GAlbum :=
  { id := "AL", title := "Trip", mediaItemsCount := 2, coverPhotoMediaItemId := "" }

/-- C4 counterexample: for an album with an existing local row the
index-needed decision raises (TypeError out of the membership count) instead
of returning a boolean. -/
theorem albumIndexNeededRaisesOnStoredAlbum :
    albumIndexNeeded c4Db (some c4AlbumRow) c4Album =
      .error "TypeError: gen_in_condition got an unexpected keyword argument negate" := by
  rfl

/-- C4 amended: the decision returns true when no local row exists; for every
album with an existing local row it raises (the membership count passes the
unsupported negate keyword to gen_in_condition), so the status / size /
count comparisons - and any title comparison, which the source never makes -
are never reached. -/
theorem albumIndexNeededAmended (db : Db) (album : GAlbum) :
    albumIndexNeeded db none album = .ok true ∧
    ∀ m : AlbumRow, ∃ e, albumIndexNeeded db (some m) album = .error e := by
  exact ⟨rfl, fun m => ⟨_, rfl⟩⟩

/-- Fresh remote item used by the commit-semantics and watermark claims. -/
def c2Item : GMediaItem :=
  { id := "A", filename := "a.jpg", mimeType := "image/jpeg",
    creationTime := "2024-01-02T03:04:05Z" }

/-- Constant clock oracle. -/
def c2Clock : Nat → String := fun _ => "2024-06-01 00:00:00"

/-- C2: indexing one fresh item with commit=False (as index_items does for
every item of a page) nevertheless leaves the inserted row in the committed
database state, because add_media_item_meta executes through Storage.execute
with its default commit=True - the insert is durable before the page commit
point ever runs. -/
theorem addMediaItemCommitsBeforePageCommit :
    ((indexItemStore c2Clock { cur := Db.empty, comm := Db.empty } 0 c2Item false).1).comm.mediaItems.map
      (fun r => r.remote_id) = ["A"] := by
  rfl

theorem settingsGet_updateASetingRows (settings : List (String × String)) (key v : String) :
    settingsGet (updateASetingRows settings key v) key = some v := by
  induction settings with
  | nil => simp [updateASetingRows, settingsGet]
  | cons kv rest ih =>
    by_cases h : kv.1 = key
    · simp [updateASetingRows, settingsGet, h]
    · simpa [updateASetingRows, settingsGet, h] using ih

theorem watermarkAdvance_pos (settings : List (String × String)) (key sdate : String)
    (s : IdxStats) (h1 : s.indexed ≠ 0) (h2 : s.failed = 0) :
    watermarkAdvance settings key sdate s = updateASetingRows settings key sdate := by
  have ht : s.indexed + s.skipped + s.failed ≠ 0 := by omega
  simp [watermarkAdvance, ht, h1, h2]

theorem watermarkAdvance_neg (settings : List (String × String)) (key sdate : String)
    (s : IdxStats) (h : s.indexed = 0 ∨ s.failed ≠ 0) :
    watermarkAdvance settings key sdate s = settings := by
  unfold watermarkAdvance
  split
  · split
    · rename_i hcond
      rcases h with h | h <;> simp [h] at hcond
    · rfl
  · rfl

/-- Database of one already-indexed, unchanged media item for the watermark
counterexample. -/
def c8Db : Db :=
  { mediaItems := [mkMedia 1 "A" "pending_sync" "2024-01-01 00:00:00"],
    albums := [], albumsItems := [], nextMediaId := 2, nextAlbumId := 1,
    nextAlbumItemId := 1 }

/-- C8 counterexample: an index pass that completes with zero failures but
indexes nothing (the listed item is already current, so it is only skipped)
does not advance media_items_last_index - the watermark update also requires
a nonzero indexed count, not merely zero failures. -/
theorem watermarkNotAdvancedOnCleanSkippedPass :
    (identityIndexMediaItems c2Clock 0 [] c8Db [PageRes.ok [c2Item] false] false).toOption.map
      (fun x => (x.1, x.2.2.2)) =
      some ([], { indexed := 0, skipped := 1, failed := 0 }) := by
  rfl

/-- C8 amended: the per-identity index advances the persisted watermark
(media_items_last_index / albums_last_index) to the start timestamp of the
pass exactly when the pass completed with at least one indexed entry and
zero failures; a pass with any failure, or with nothing indexed, leaves the
settings unchanged (and a raising listing aborts before any watermark
decision). -/
theorem identityWatermarkAmended :
    (∀ (clock : Nat → String) (tick0 : Nat) settings db pages rescan st db1 tick1 s1,
      identityIndexMediaItems clock tick0 settings db pages rescan
          = .ok (st, db1, tick1, s1) →
        ((s1.indexed ≠ 0 ∧ s1.failed = 0) →
          settingsGet st "media_items_last_index" = some (clock tick0)) ∧
        ((s1.indexed = 0 ∨ s1.failed ≠ 0) → st = settings)) ∧
    (∀ (clock : Nat → String) (tick0 : Nat) settings db pages itemPagesOf filterAlbums
        st db1 tick1 s1,
      identityIndexAlbums clock tick0 settings db pages itemPagesOf filterAlbums
          = .ok (st, db1, tick1, s1) →
        ((s1.indexed ≠ 0 ∧ s1.failed = 0) →
          settingsGet st "albums_last_index" = some (clock tick0)) ∧
        ((s1.indexed = 0 ∨ s1.failed ≠ 0) → st = settings)) := by
  constructor
  · intro clock tick0 settings db pages rescan st db1 tick1 s1 heq
    unfold identityIndexMediaItems at heq
    cases hrun : indexItems clock (tick0 + 1) db pages rescan with
    | error e => rw [hrun] at heq; simp at heq
    | ok x =>
      obtain ⟨xdb, xtick, xs⟩ := x
      rw [hrun] at heq
      simp only [Except.ok.injEq, Prod.mk.injEq] at heq
      obtain ⟨h1, _, _, h4⟩ := heq
      subst h4
      constructor
      · rintro ⟨hi, hf⟩
        rw [← h1, watermarkAdvance_pos _ _ _ _ hi hf]
        exact settingsGet_updateASetingRows _ _ _
      · intro h
        rw [← h1, watermarkAdvance_neg _ _ _ _ h]
  · intro clock tick0 settings db pages itemPagesOf filterAlbums st db1 tick1 s1 heq
    unfold identityIndexAlbums at heq
    cases hrun : indexAlbums clock (tick0 + 1) db pages itemPagesOf filterAlbums with
    | error e => rw [hrun] at heq; simp at heq
    | ok x =>
      obtain ⟨xdb, xtick, xs⟩ := x
      rw [hrun] at heq
      simp only [Except.ok.injEq, Prod.mk.injEq] at heq
      obtain ⟨h1, _, _, h4⟩ := heq
      subst h4
      constructor
      · rintro ⟨hi, hf⟩
        rw [← h1, watermarkAdvance_pos _ _ _ _ hi hf]
        exact settingsGet_updateASetingRows _ _ _
      · intro h
        rw [← h1, watermarkAdvance_neg _ _ _ _ h]

/-- Row created by indexing the fresh item of the witness run. -/
def c8wRow : MediaItemRow :=
  { media_id := 1, remote_id := "A", name := "a.jpg", cname := "a.jpg",
    mime_type := "image/jpeg", create_date := "2024-01-02 03:04:05",
    modify_date := "2024-01-02 03:04:05", path := "items/2024/01",
    index_date := "2024-06-01 00:00:00", last_checked := "2024-06-01 00:00:00",
    status := "pending_sync" }

/-- Database state after indexing the fresh item of the witness run. -/
def c8wDb1 : Db :=
  { mediaItems := [c8wRow], albums := [], albumsItems := [],
    nextMediaId := 2, nextAlbumId := 1, nextAlbumItemId := 1 }

def c8wSettings : List (String × String) :=
  [("media_items_last_index", "2024-06-01 00:00:00")]

/-- Witness for the amended C8: a pass that indexes one item with zero
failures advances the media watermark to the start timestamp. -/
theorem identityWatermarkAmended_witness :
    ((1 : Nat) ≠ 0 ∧ (0 : Nat) = 0) ∧
    settingsGet c8wSettings "media_items_last_index" = some (c2Clock 0) :=
  ⟨⟨by decide, rfl⟩,
   (identityWatermarkAmended.1 c2Clock 0 [] Db.empty [PageRes.ok [c2Item] false] false
       c8wSettings c8wDb1 3 { indexed := 1, skipped := 0, failed := 0 } (by rfl)).1
     ⟨by decide, rfl⟩⟩

/-- Media row, stale album and stale membership row for the obsolete-items
deletion claim, with the link file present on disk. -/
def c5MediaRow : MediaItemRow := mkMedia 1 "M" "synced" "2024-01-01 00:00:00"

def c5AlbumRow : AlbumRow :=
  { album_id := 1, remote_id := "AL", name := "Trip", cname := "Trip",
    size := 1, cover_photo_id := "", path := "albums",
    index_date := "t1", last_checked := "t1", status := "stale" }

def c5Db : Db :=
  { mediaItems := [c5MediaRow], albums := [c5AlbumRow],
    albumsItems := [{ album_item_id := 1, album_id := 1, media_id := 1, status := "stale" }],
    nextMediaId := 2, nextAlbumId := 2, nextAlbumItemId := 2 }

def c5Fs : Fs := [{ dir := "albums/Trip", name := "c1", mtime := "" }]

/-- C5: running _delete_obsolete_albums_items_db over one stale membership
row deletes its link file but then fails on delete_album_item_meta (the
statement references unbound placeholders), so the database row survives and
the pass reports deleted 0, failed 1 - stale join rows are never removed and
remain orphaned after the album sweep. -/
theorem staleAlbumItemRowNeverDeleted :
    deleteObsoleteAlbumsItemsDb c5Fs c5Db 5 = ([], c5Db, 0, 1) := by
  rfl

theorem fileExists_of_find {fs : Fs} {d n : String} {f : FsFile}
    (h : fs.find? (fun g => g.dir = d && g.name = n) = some f) :
    fileExists fs d n = true := by
  have hp := List.find?_some h
  unfold fileExists
  rw [List.any_eq_true]
  exact ⟨f, List.mem_of_find?_eq_some h, hp⟩

theorem fileExists_append_self (fs : Fs) (d n m : String) :
    fileExists (fs ++ [{ dir := d, name := n, mtime := m }]) d n = true := by
  simp [fileExists]

/-- C7: a per-item sync task outcome that the status writer maps to synced
(the task returned synced or skipped) guarantees that the backing file (for a
media item) or the link (for an album item) exists in the filesystem state
the task left behind: syncItem and syncAlbumItem return such outcomes only
after verifying or creating the file in the same step. -/
theorem syncedStatusRequiresFileOnDisk :
    (∀ fs meta item fs1 st, syncItem fs meta item = (fs1, Except.ok st) →
       syncTaskStatusUpd (Except.ok st) = "synced" →
       fileExists fs1 meta.path meta.cname = true) ∧
    (∀ fs m u fs1 st, syncAlbumItem fs m u = (fs1, Except.ok st) →
       syncTaskStatusUpd (Except.ok st) = "synced" →
       fileExists fs1 ((m.album_path.getD "") ++ "/" ++ (m.album_cname.getD ""))
         (m.item_cname.getD "") = true) := by
  constructor
  · intro fs meta item fs1 st heq hupd
    unfold syncItem at heq
    cases herr : item.errorMsg with
    | some e => simp [herr] at heq
    | none =>
    cases hurl : item.baseUrl with
    | none => simp [herr, hurl] at heq
    | some url =>
    simp only [herr, hurl] at heq
    by_cases hign : meta.status = "ignored"
    · simp only [hign, if_true, Prod.mk.injEq, Except.ok.injEq] at heq
      rw [← heq.2] at hupd
      simp [syncTaskStatusUpd] at hupd
    · by_cases hvid :
        (mimeTypeMain meta.mime_type = "video" && !(item.videoStatus = some "READY")) = true
      · simp [hign, hvid] at heq
      · cases hfind : fs.find? (fun f => f.dir = meta.path && f.name = meta.cname) with
        | some f =>
          by_cases hmt : f.mtime = meta.modify_date
          · simp only [hign, hvid, hfind, hmt, if_false, if_true, Bool.false_eq_true,
              Prod.mk.injEq, Except.ok.injEq, if_neg hign] at heq
            rw [← heq.1]
            exact fileExists_of_find hfind
          · unfold downloadMove at heq
            cases hdl : item.downloadOk with
            | false =>
              simp [hign, hvid, hfind, hmt, hdl] at heq
            | true =>
              simp only [hign, hvid, hfind, hmt, hdl, if_neg hign, Bool.false_eq_true,
                if_false, if_true, Prod.mk.injEq, Except.ok.injEq] at heq
              rw [← heq.1]
              exact fileExists_append_self _ _ _ _
        | none =>
          unfold downloadMove at heq
          cases hdl : item.downloadOk with
          | false => simp [hign, hvid, hfind, hdl] at heq
          | true =>
            simp only [hign, hvid, hfind, hdl, if_neg hign, Bool.false_eq_true,
              if_false, if_true, Prod.mk.injEq, Except.ok.injEq] at heq
            rw [← heq.1]
            exact fileExists_append_self _ _ _ _
  · intro fs m u fs1 st heq hupd
    simp only [syncAlbumItem] at heq
    by_cases hcn : (!(strTruthy m.item_cname) || !(strTruthy m.album_cname)) = true
    · rw [if_pos hcn] at heq
      simp at heq
    · rw [if_neg hcn] at heq
      by_cases hst : (!(["synced", "ignored"].contains (m.item_status.getD ""))) = true
      · rw [if_pos hst] at heq
        simp at heq
      · rw [if_neg hst] at heq
        by_cases hign : m.item_status = some "ignored"
        · rw [if_pos hign] at heq
          simp only [Prod.mk.injEq, Except.ok.injEq] at heq
          rw [← heq.2] at hupd
          simp [syncTaskStatusUpd] at hupd
        · rw [if_neg hign] at heq
          by_cases hsrc :
              (!(fileExists fs (m.item_path.getD "") (m.item_cname.getD ""))) = true
          · rw [if_pos hsrc] at heq
            simp at heq
          · rw [if_neg hsrc] at heq
            by_cases hdest :
                fileExists fs ((m.album_path.getD "") ++ "/" ++ (m.album_cname.getD ""))
                  (m.item_cname.getD "") = true
            · rw [if_pos hdest] at heq
              simp only [Prod.mk.injEq, Except.ok.injEq] at heq
              rw [← heq.1]
              exact hdest
            · rw [if_neg hdest] at heq
              simp only [Prod.mk.injEq, Except.ok.injEq] at heq
              rw [← heq.1]
              exact fileExists_append_self _ _ _ _

/-- Meta row and batch reply for the C7 witness: a pending item whose
download succeeds. -/
def c7Meta : MediaItemRow := mkMedia 1 "M" "pending_sync" "2024-01-01 00:00:00"

def c7Item : SyncedMediaItem :=
  { errorMsg := none, baseUrl := some "https://x", videoStatus := none,
    downloadOk := true }

/-- Witness for C7: syncing the item downloads the file and the resulting
filesystem holds it. -/
theorem syncedStatusRequiresFileOnDisk_witness :
    fileExists [{ dir := "items/2024/01", name := "c1",
                  mtime := "2024-01-01 00:00:00" }] "items/2024/01" "c1" = true :=
  syncedStatusRequiresFileOnDisk.1 [] c7Meta c7Item _ "synced" (by rfl) (by rfl)

/-- Remote album and post-first-run database for the idempotence claim: the
album row is exactly what run one left behind (status indexed, size 1, one
synced membership row, one synced media item), and the remote library is
unchanged. -/
def c3Album : GAlbum :=
  { id := "AL", title := "Trip", mediaItemsCount := 1, coverPhotoMediaItemId := "" }

def c3Db : Db :=
  { mediaItems := [mkMedia 1 "M" "synced" "2024-01-01 00:00:00"],
    albums := [{ album_id := 1, remote_id := "AL", name := "Trip", cname := "Trip",
                 size := 1, cover_photo_id := "", path := "albums",
                 index_date := "2024-01-01 00:00:00",
                 last_checked := "2024-01-01 00:00:00", status := "indexed" }],
    albumsItems := [{ album_item_id := 1, album_id := 1, media_id := 1, status := "synced" }],
    nextMediaId := 2, nextAlbumId := 2, nextAlbumItemId := 2 }

/-- C3: a second index_albums run over an unchanged remote library is not
idempotent: for the one already-indexed album, _index_needed raises
(TypeError out of the membership count), the album is counted failed and its
last_checked is never bumped, so the end-of-run stale sweep marks the album
and (by propagation) its membership row stale - the run returns indexed 0,
skipped 0, failed 1 and flips both statuses from their success values to
stale. -/
theorem secondAlbumIndexRunMarksEverythingStale :
    (indexAlbums c2Clock 0 c3Db [AlbumPageRes.ok [c3Album] false] (fun _ => []) []).toOption.map
        (fun x => (x.1.albums.map (fun a => a.status),
                   x.1.albumsItems.map (fun ai => ai.status), x.2.2)) =
      some (["stale"], ["stale"], { indexed := 0, skipped := 0, failed := 1 }) := by
  rfl

/-- Synced rows table of 101 rows for the pagination claim. -/
def c6Row (i : Nat) : MediaItemRow :=
  { media_id := i + 1, remote_id := toString (i + 1), name := "n",
    cname := toString (i + 1), mime_type := "m", create_date := "t",
    modify_date := "t", path := "d", index_date := "t", last_checked := "t",
    status := "synced" }

def c6Db : Db :=
  { mediaItems := (List.range 101).map c6Row, albums := [], albumsItems := [],
    nextMediaId := 102, nextAlbumId := 1, nextAlbumItemId := 1 }

/-- Files backing rows 2..100; the files of rows 1 and 101 are missing. -/
def c6Fs : Fs :=
  (List.range 99).map (fun i => { dir := "d", name := toString (i + 2), mtime := "t" })

/-- C6 counterexample: with 101 synced rows and the files of rows 1 and 101
missing, the pass fixes row 1 on page one; the synced result set shrinks to
100 rows, the offset still advances to 100, the second search is empty and
row 101 is never examined - after completion a synced row with a missing
backing file remains. -/
theorem scanSyncedItemsFsSkipsShiftedRow :
    ((scanSyncedItemsFs c6Fs c6Db).1.mediaItems.any
       (fun r => r.status = "synced" && !(itemExistsFs c6Fs r))) = true := by
  decide

theorem mem_updateMediaItemRows_pending (db : Db) (m : Nat) :
    ∀ r ∈ (updateMediaItemRows db m { status := some "pending_sync" }).mediaItems,
      r ∈ db.mediaItems ∨ r.status = "pending_sync" := by
  intro r hr
  simp only [updateMediaItemRows, List.mem_map] at hr
  obtain ⟨t, ht, rfl⟩ := hr
  by_cases h : t.media_id = m
  · right; simp [h, applyMediaItemUpdate]
  · left; simpa [h] using ht

theorem updateMediaItemRows_pends_all (db : Db) (m : Nat) :
    ∀ r ∈ (updateMediaItemRows db m { status := some "pending_sync" }).mediaItems,
      r.media_id = m → r.status = "pending_sync" := by
  intro r hr hid
  simp only [updateMediaItemRows, List.mem_map] at hr
  obtain ⟨t, ht, rfl⟩ := hr
  by_cases h : t.media_id = m
  · simp [h, applyMediaItemUpdate]
  · rw [if_neg h] at hid
    exact absurd hid h

theorem updateMediaItemRows_preserves_pending (db : Db) (m mid : Nat)
    (h : ∀ r ∈ db.mediaItems, r.media_id = mid → r.status = "pending_sync") :
    ∀ r ∈ (updateMediaItemRows db m { status := some "pending_sync" }).mediaItems,
      r.media_id = mid → r.status = "pending_sync" := by
  intro r hr hid
  simp only [updateMediaItemRows, List.mem_map] at hr
  obtain ⟨t, ht, rfl⟩ := hr
  by_cases hm : t.media_id = m
  · simp [hm, applyMediaItemUpdate]
  · simp only [hm, if_false, Bool.false_eq_true] at hid ⊢
    exact h t ht (by simpa [hm] using hid)

theorem scanFixPage_mem (fs : Fs) (rows : List MediaItemRow) :
    ∀ db k, ∀ r ∈ (scanFixPage fs rows db k).1.mediaItems,
      r ∈ db.mediaItems ∨ r.status = "pending_sync" := by
  induction rows with
  | nil => intro db k r hr; exact Or.inl hr
  | cons x rest ih =>
    intro db k r hr
    unfold scanFixPage at hr
    by_cases hx : itemExistsFs fs x = true
    · rw [if_pos hx] at hr
      exact ih db k r hr
    · rw [if_neg hx] at hr
      rcases ih _ _ r hr with hmem | hpend
      · exact mem_updateMediaItemRows_pending _ _ r hmem
      · exact Or.inr hpend

theorem scanFixPage_preserves_pending (fs : Fs) (rows : List MediaItemRow) (mid : Nat) :
    ∀ db k, (∀ r ∈ db.mediaItems, r.media_id = mid → r.status = "pending_sync") →
      ∀ r ∈ (scanFixPage fs rows db k).1.mediaItems,
        r.media_id = mid → r.status = "pending_sync" := by
  induction rows with
  | nil => intro db k h r hr; exact h r hr
  | cons x rest ih =>
    intro db k h r hr
    unfold scanFixPage at hr
    by_cases hx : itemExistsFs fs x = true
    · rw [if_pos hx] at hr
      exact ih db k h r hr
    · rw [if_neg hx] at hr
      exact ih _ _ (updateMediaItemRows_preserves_pending db x.media_id mid h) r hr

theorem scanFixPage_pends_missing (fs : Fs) (rows : List MediaItemRow) :
    ∀ db k s, s ∈ rows → itemExistsFs fs s = false →
      ∀ r ∈ (scanFixPage fs rows db k).1.mediaItems,
        r.media_id = s.media_id → r.status = "pending_sync" := by
  induction rows with
  | nil => intro db k s hs; exact absurd hs (List.not_mem_nil s)
  | cons x rest ih =>
    intro db k s hs hmiss r hr hid
    rcases List.mem_cons.mp hs with rfl | hrest
    · unfold scanFixPage at hr
      rw [if_neg (by simp [hmiss])] at hr
      exact scanFixPage_preserves_pending fs rest s.media_id _ _
        (updateMediaItemRows_pends_all db s.media_id) r hr hid
    · unfold scanFixPage at hr
      by_cases hx : itemExistsFs fs x = true
      · rw [if_pos hx] at hr
        exact ih db k s hrest hmiss r hr hid
      · rw [if_neg hx] at hr
        exact ih _ _ s hrest hmiss r hr hid

theorem filter_length_map_le {α : Type} (f : α → α) (p : α → Bool)
    (h : ∀ x, p (f x) = true → p x = true) :
    ∀ l : List α, ((l.map f).filter p).length ≤ (l.filter p).length := by
  intro l
  induction l with
  | nil => simp
  | cons x rest ih =>
    simp only [List.map_cons, List.filter_cons]
    by_cases hfx : p (f x) = true
    · rw [if_pos hfx, if_pos (h x hfx)]
      simpa using ih
    · rw [if_neg hfx]
      by_cases hx : p x = true
      · rw [if_pos hx]
        exact le_trans ih (by simp)
      · rw [if_neg hx]
        exact ih

theorem searchMedia_status_only (db : Db) (limit offset : Nat) (status : List String) :
    searchMediaItemsMeta db limit offset none none status =
      ((db.mediaItems.filter (fun r => statusMatch status r.status)).drop offset).take limit := by
  simp [searchMediaItemsMeta, strTruthy]

theorem scanFixPage_synced_length_le (fs : Fs) (rows : List MediaItemRow) :
    ∀ db k, (((scanFixPage fs rows db k).1.mediaItems.filter
        (fun r => statusMatch ["synced"] r.status)).length)
      ≤ ((db.mediaItems.filter (fun r => statusMatch ["synced"] r.status)).length) := by
  induction rows with
  | nil => intro db k; exact le_refl _
  | cons x rest ih =>
    intro db k
    unfold scanFixPage
    by_cases hx : itemExistsFs fs x = true
    · rw [if_pos hx]; exact ih db k
    · rw [if_neg hx]
      refine le_trans (ih _ _) ?_
      simp only [updateMediaItemRows]
      apply filter_length_map_le
      intro y hy
      by_cases hm : y.media_id = x.media_id
      · rw [if_pos hm] at hy
        simp [applyMediaItemUpdate, statusMatch] at hy
      · rwa [if_neg hm] at hy

theorem scanSyncedLoop_single_page (fs : Fs) (db : Db)
    (hcnt : getMediaItemsMetaCnt db ["synced"] ≤ 100)
    (h0 : ¬ getMediaItemsMetaCnt db ["synced"] = 0) :
    scanSyncedLoop fs (db.mediaItems.length + 2) db 0 0 =
      ((scanFixPage fs (db.mediaItems.filter (fun x => statusMatch ["synced"] x.status)) db 0).1,
       (scanFixPage fs (db.mediaItems.filter (fun x => statusMatch ["synced"] x.status)) db 0).2) := by
  set F := db.mediaItems.filter (fun x => statusMatch ["synced"] x.status) with hF
  have hsearch0 : searchMediaItemsMeta db 100 0 none none ["synced"] = F := by
    rw [searchMedia_status_only]
    simp only [List.drop_zero]
    exact List.take_of_length_le hcnt
  have hFne : ¬ F = [] := by
    intro hnil
    exact h0 (by show F.length = 0; rw [hnil]; rfl)
  have hs1le : (((scanFixPage fs F db 0).1.mediaItems.filter
      (fun r => statusMatch ["synced"] r.status)).length) ≤ 100 :=
    le_trans (scanFixPage_synced_length_le fs F db 0) hcnt
  have hsearch1 : searchMediaItemsMeta (scanFixPage fs F db 0).1 100 100 none none ["synced"] = [] := by
    rw [searchMedia_status_only, List.drop_eq_nil_of_le hs1le]
    rfl
  have e1 : db.mediaItems.length + 2 = (db.mediaItems.length + 1) + 1 := rfl
  rw [e1]
  conv_lhs => rw [scanSyncedLoop]
  simp only [hsearch0, hFne, if_false, Nat.zero_add]
  conv_lhs => rw [scanSyncedLoop]
  simp only [hsearch1, if_true]

/-- C6 amended: every synced row the pass examines whose backing file is
missing is reset to pending_sync, and when the synced rows fit into a single
page (at most 100), every synced row is examined - afterwards no synced row
with a missing backing file remains.  With more than one page, a fix on an
earlier page shifts later rows across the page boundary (the offset still
advances by the full page size), so some synced rows may never be examined
(see the counterexample). -/
theorem scanSyncedItemsFsAmended (fs : Fs) (db : Db)
    (hcnt : getMediaItemsMetaCnt db ["synced"] ≤ 100) :
    ∀ r ∈ (scanSyncedItemsFs fs db).1.mediaItems, r.status = "synced" →
      itemExistsFs fs r = true := by
  intro r hr hst
  by_cases h0 : getMediaItemsMetaCnt db ["synced"] = 0
  · unfold scanSyncedItemsFs at hr
    rw [if_pos h0] at hr
    exfalso
    have hmemf : r ∈ db.mediaItems.filter (fun x => statusMatch ["synced"] x.status) :=
      List.mem_filter.mpr ⟨hr, by simp [statusMatch, hst]⟩
    have hzero : (db.mediaItems.filter (fun x => statusMatch ["synced"] x.status)).length = 0 := h0
    rw [List.length_eq_zero] at hzero
    rw [hzero] at hmemf
    exact absurd hmemf (List.not_mem_nil r)
  · unfold scanSyncedItemsFs at hr
    rw [if_neg h0, scanSyncedLoop_single_page fs db hcnt h0] at hr
    rcases scanFixPage_mem fs _ db 0 r hr with hmem | hpend
    · by_cases hex : itemExistsFs fs r = true
      · exact hex
      · exfalso
        have hrF : r ∈ db.mediaItems.filter (fun x => statusMatch ["synced"] x.status) :=
          List.mem_filter.mpr ⟨hmem, by simp [statusMatch, hst]⟩
        have hpend2 := scanFixPage_pends_missing fs _ db 0 r hrF
          (by simpa using hex) r hr rfl
        rw [hst] at hpend2
        exact absurd hpend2 (by decide)
    · rw [hst] at hpend
      exact absurd hpend (by decide)

/-- One synced row with a missing file for the amended-C6 witness. -/
def c6wDb : Db :=
  { mediaItems := [mkMedia 1 "A" "synced" "t1"], albums := [], albumsItems := [],
    nextMediaId := 2, nextAlbumId := 1, nextAlbumItemId := 1 }

/-- Witness for the amended C6: with a single page of synced rows, after the
pass no synced row lacks its backing file. -/
theorem scanSyncedItemsFsAmended_witness :
    getMediaItemsMetaCnt c6wDb ["synced"] ≤ 100 ∧
    (∀ r ∈ (scanSyncedItemsFs [] c6wDb).1.mediaItems, r.status = "synced" →
      itemExistsFs [] r = true) :=
  ⟨by decide, scanSyncedItemsFsAmended [] c6wDb (by decide)⟩

/-- Schema well-formedness of the media_items table: remote_id is UNIQUE,
media_id is the primary key, and the AUTOINCREMENT counter is above every
stored id. -/
def MediaWF (db : Db) : Prop :=
  (db.mediaItems.map (fun r => r.remote_id)).Nodup ∧
  (db.mediaItems.map (fun r => r.media_id)).Nodup ∧
  ∀ r ∈ db.mediaItems, r.media_id < db.nextMediaId

/-- Remote ids the page loop of index_items actually processes: the walk
stops at the first page without a nextPageToken and at a raising page. -/
def listedIds : List PageRes → List String
  | [] => []
  | .err _ :: _ => []
  | .ok items hasNext :: rest =>
    items.map (fun i => i.id) ++ (if hasNext then listedIds rest else [])

/-- Loop invariant of the index pass, relative to the starting database and
check_date: a processed row (remote id in P) has been touched this run (its
last_checked is not before check_date) and carries one of the three statuses
that survive _index_needed; an unprocessed row is an unchanged row of the
starting database. -/
def IndexInv (db0 : Db) (checkDate : String) (P : List String) (db : Db) : Prop :=
  ∀ r ∈ db.mediaItems,
    (r.remote_id ∈ P → strLt r.last_checked checkDate = false ∧
       r.status ∈ ["synced", "pending_sync", "ignored"]) ∧
    (r.remote_id ∉ P → r ∈ db0.mediaItems)

theorem find?_remote_mem {db : Db} {rid : String} {m : MediaItemRow}
    (h : getMediaItemMetaByRemoteId db rid = some m) :
    m ∈ db.mediaItems ∧ m.remote_id = rid := by
  unfold getMediaItemMetaByRemoteId at h
  refine ⟨List.mem_of_find?_eq_some h, ?_⟩
  have := List.find?_some h
  simpa using this

theorem MediaWF_map (db : Db) (f : MediaItemRow → MediaItemRow)
    (hid : ∀ r, (f r).media_id = r.media_id)
    (hrid : ∀ r, (f r).remote_id = r.remote_id)
    (hWF : MediaWF db) : MediaWF { db with mediaItems := db.mediaItems.map f } := by
  obtain ⟨h1, h2, h3⟩ := hWF
  refine ⟨?_, ?_, ?_⟩
  · rw [List.map_map]
    have he : db.mediaItems.map ((fun r => r.remote_id) ∘ f)
        = db.mediaItems.map (fun r => r.remote_id) :=
      List.map_congr_left (fun x _ => hrid x)
    rw [he]; exact h1
  · rw [List.map_map]
    have he : db.mediaItems.map ((fun r => r.media_id) ∘ f)
        = db.mediaItems.map (fun r => r.media_id) :=
      List.map_congr_left (fun x _ => hid x)
    rw [he]; exact h2
  · intro r hr
    obtain ⟨t, ht, rfl⟩ := List.mem_map.mp hr
    rw [hid]
    exact h3 t ht

theorem addMediaItemRows_effect (db : Db) (a : MediaItemAdd) (hWF : MediaWF db) :
    MediaWF (addMediaItemRows db a).1 ∧
    ∀ r ∈ (addMediaItemRows db a).1.mediaItems,
      (r.remote_id = a.remote_id → r.last_checked = a.last_checked ∧ r.status = a.status) ∧
      (r.remote_id ≠ a.remote_id → r ∈ db.mediaItems) := by
  unfold addMediaItemRows
  cases hf : db.mediaItems.find? (fun r => r.remote_id = a.remote_id) with
  | some t0 =>
    simp only [hf, Option.isSome_some, if_true]
    constructor
    · exact MediaWF_map db _ (by intro r; split <;> rfl) (by intro r; split <;> rfl) hWF
    · intro r hr
      obtain ⟨t, ht, rfl⟩ := List.mem_map.mp hr
      by_cases hx : t.remote_id = a.remote_id
      · rw [if_pos hx]
        exact ⟨fun _ => ⟨rfl, rfl⟩, fun hne => absurd hx hne⟩
      · rw [if_neg hx]
        exact ⟨fun heq => absurd heq hx, fun _ => ht⟩
  | none =>
    simp only [hf, Option.isSome_none, Bool.false_eq_true, if_false]
    have hnotin : ∀ x ∈ db.mediaItems, x.remote_id ≠ a.remote_id := by
      intro x hx
      have := List.find?_eq_none.mp hf x hx
      simpa using this
    obtain ⟨h1, h2, h3⟩ := hWF
    refine ⟨⟨?_, ?_, ?_⟩, ?_⟩
    · simp only [List.map_append, List.map_cons, List.map_nil]
      rw [List.nodup_append]
      refine ⟨h1, List.nodup_singleton _, ?_⟩
      rw [List.disjoint_singleton]
      intro hmem
      obtain ⟨x, hx, hxe⟩ := List.mem_map.mp hmem
      exact hnotin x hx hxe
    · simp only [List.map_append, List.map_cons, List.map_nil]
      rw [List.nodup_append]
      refine ⟨h2, List.nodup_singleton _, ?_⟩
      rw [List.disjoint_singleton]
      intro hmem
      obtain ⟨x, hx, hxe⟩ := List.mem_map.mp hmem
      exact absurd hxe (Nat.ne_of_lt (h3 x hx))
    · intro r hr
      rcases List.mem_append.mp hr with hold | hnew
      · exact Nat.lt_trans (h3 r hold) (Nat.lt_succ_self _)
      · rw [List.mem_singleton.mp hnew]
        exact Nat.lt_succ_self _
    · intro r hr
      rcases List.mem_append.mp hr with hold | hnew
      · exact ⟨fun heq => absurd heq (hnotin r hold), fun _ => hold⟩
      · rw [List.mem_singleton.mp hnew]
        exact ⟨fun _ => ⟨rfl, rfl⟩, fun hne => absurd rfl hne⟩

theorem updateLastChecked_effect (db : Db) (m : MediaItemRow) (now : String)
    (hWF : MediaWF db) (hmem : m ∈ db.mediaItems) :
    MediaWF (updateMediaItemRows db m.media_id { last_checked := some now }) ∧
    ∀ r ∈ (updateMediaItemRows db m.media_id { last_checked := some now }).mediaItems,
      (r.remote_id = m.remote_id → r.last_checked = now ∧ r.status = m.status) ∧
      (r.remote_id ≠ m.remote_id → r ∈ db.mediaItems) := by
  have hWF2 := hWF
  obtain ⟨h1, h2, _⟩ := hWF2
  constructor
  · exact MediaWF_map db _ (by intro r; split <;> rfl) (by intro r; split <;> rfl) hWF
  · intro r hr
    simp only [updateMediaItemRows, List.mem_map] at hr
    obtain ⟨t, ht, rfl⟩ := hr
    by_cases hx : t.media_id = m.media_id
    · have hteq : t = m := List.inj_on_of_nodup_map h2 ht hmem hx
      subst hteq
      rw [if_pos hx]
      exact ⟨fun _ => ⟨rfl, rfl⟩, fun hne => absurd rfl hne⟩
    · rw [if_neg hx]
      refine ⟨fun heq => ?_, fun _ => ht⟩
      have hteq : t = m := List.inj_on_of_nodup_map h1 ht hmem heq
      exact absurd (congrArg (fun r => r.media_id) hteq) hx

theorem indexItem_effect (clock : Nat → String) (checkDate : String) (db : Db)
    (tick : Nat) (item : GMediaItem) (hWF : MediaWF db)
    (hc : strLt (clock tick) checkDate = false) :
    MediaWF (indexItem clock db tick item).1 ∧
    ∀ r ∈ (indexItem clock db tick item).1.mediaItems,
      (r.remote_id = item.id → strLt r.last_checked checkDate = false ∧
         r.status ∈ ["synced", "pending_sync", "ignored"]) ∧
      (r.remote_id ≠ item.id → r ∈ db.mediaItems) := by
  by_cases hneed : mediaIndexNeeded (getMediaItemMetaByRemoteId db item.id) item = true
  · have hres : (indexItem clock db tick item).1 = (addItem db (clock tick) item).1 := by
      simp [indexItem, hneed]
    rw [hres]
    unfold addItem
    obtain ⟨hwf1, heff⟩ := addMediaItemRows_effect db
      { remote_id := item.id, name := item.filename,
        cname := getCanonicalizedName db item.filename (genPathByCdate item.creationTime),
        mime_type := item.mimeType, create_date := apiDateToSql item.creationTime,
        modify_date := apiDateToSql item.creationTime,
        path := genPathByCdate item.creationTime, index_date := clock tick,
        last_checked := clock tick, status := "pending_sync" } hWF
    refine ⟨hwf1, ?_⟩
    intro r hr
    obtain ⟨hin, hout⟩ := heff r hr
    refine ⟨fun heq => ?_, hout⟩
    obtain ⟨hlc, hstt⟩ := hin heq
    rw [hlc, hstt]
    exact ⟨hc, by simp⟩
  · cases hm : getMediaItemMetaByRemoteId db item.id with
    | none => rw [hm] at hneed; exact absurd rfl hneed
    | some m =>
      rw [hm] at hneed
      have hst : m.status ∈ ["synced", "pending_sync", "ignored"] := by
        have h2 : mediaIndexNeeded (some m) item = false := by
          simpa using hneed
        unfold mediaIndexNeeded at h2
        have h3 : (["synced", "pending_sync", "ignored"].contains m.status) = true := by
          rwa [Bool.not_eq_false'] at h2
        have h4 : m.status = "synced" ∨ m.status = "pending_sync" ∨ m.status = "ignored" := by
          by_cases e1 : m.status = "synced"
          · exact Or.inl e1
          · by_cases e2 : m.status = "pending_sync"
            · exact Or.inr (Or.inl e2)
            · exact Or.inr (Or.inr (by simpa [e1, e2] using h3))
        simpa using h4
      obtain ⟨hmem, hrid⟩ := find?_remote_mem hm
      have hres : (indexItem clock db tick item).1
          = updateMediaItemRows db m.media_id { last_checked := some (clock tick) } := by
        simp [indexItem, hm, hneed]
      rw [hres]
      obtain ⟨hwf1, heff⟩ := updateLastChecked_effect db m (clock tick) hWF hmem
      refine ⟨hwf1, ?_⟩
      intro r hr
      obtain ⟨hin, hout⟩ := heff r hr
      rw [hrid] at hin hout
      refine ⟨fun heq => ?_, hout⟩
      obtain ⟨hlc, hstt⟩ := hin heq
      rw [hlc, hstt]
      exact ⟨hc, hst⟩

theorem indexPage_inv (clock : Nat → String) (checkDate : String) (db0 : Db)
    (hClock : ∀ i, strLt (clock i) checkDate = false) (items : List GMediaItem) :
    ∀ db tick s P, MediaWF db → IndexInv db0 checkDate P db →
      MediaWF (indexPage clock items db tick s).1 ∧
      IndexInv db0 checkDate (P ++ items.map (fun i => i.id))
        (indexPage clock items db tick s).1 := by
  induction items with
  | nil =>
    intro db tick s P hWF hInv
    simpa [indexPage] using ⟨hWF, hInv⟩
  | cons i rest ih =>
    intro db tick s P hWF hInv
    obtain ⟨heWF, heff⟩ := indexItem_effect clock checkDate db tick i hWF (hClock tick)
    have hInv1 : IndexInv db0 checkDate (P ++ [i.id]) (indexItem clock db tick i).1 := by
      intro r hr
      obtain ⟨hin, hout⟩ := heff r hr
      constructor
      · intro hmem
        rcases List.mem_append.mp hmem with hP | hii
        · by_cases heq : r.remote_id = i.id
          · exact hin heq
          · exact (hInv r (hout heq)).1 hP
        · exact hin (List.mem_singleton.mp hii)
      · intro hnmem
        have hne : r.remote_id ≠ i.id := fun he =>
          hnmem (List.mem_append.mpr (Or.inr (by simp [he])))
        have hP : r.remote_id ∉ P := fun hp => hnmem (List.mem_append.mpr (Or.inl hp))
        exact (hInv r (hout hne)).2 hP
    rcases hstep : indexItem clock db tick i with ⟨db1, tick1, st⟩
    rw [hstep] at hInv1 heWF
    have hassoc : P ++ (List.map (fun i => i.id) (i :: rest))
        = (P ++ [i.id]) ++ rest.map (fun i => i.id) := by
      simp
    rw [hassoc]
    have hgoal : indexPage clock (i :: rest) db tick s
        = if st = "indexed" then
            indexPage clock rest db1 tick1 { s with indexed := s.indexed + 1 }
          else
            indexPage clock rest db1 tick1 { s with skipped := s.skipped + 1 } := by
      simp [indexPage, hstep]
    rw [hgoal]
    by_cases hst : st = "indexed"
    · rw [if_pos hst]
      exact ih db1 tick1 _ (P ++ [i.id]) heWF hInv1
    · rw [if_neg hst]
      exact ih db1 tick1 _ (P ++ [i.id]) heWF hInv1

theorem indexItemsLoop_inv (clock : Nat → String) (checkDate : String) (db0 : Db)
    (hClock : ∀ i, strLt (clock i) checkDate = false) :
    ∀ pages : List PageRes, ∀ db tick s P, MediaWF db → IndexInv db0 checkDate P db →
      (∀ db1 tick1 s1, indexItemsLoop clock pages db tick s = .ok (db1, tick1, s1) →
        MediaWF db1 ∧ IndexInv db0 checkDate (P ++ listedIds pages) db1) ∧
      (∀ dbE sE, indexItemsLoop clock pages db tick s = .error (dbE, sE) →
        ∀ r ∈ dbE.mediaItems, r.status = "stale" → r ∈ db0.mediaItems) := by
  intro pages
  induction pages with
  | nil =>
    intro db tick s P hWF hInv
    constructor
    · intro db1 tick1 s1 heq
      simp only [indexItemsLoop, Except.ok.injEq, Prod.mk.injEq] at heq
      obtain ⟨rfl, -, -⟩ := heq
      simpa [listedIds] using ⟨hWF, hInv⟩
    · intro dbE sE heq
      simp [indexItemsLoop] at heq
  | cons page rest ih =>
    intro db tick s P hWF hInv
    cases page with
    | err msg =>
      constructor
      · intro db1 tick1 s1 heq
        simp [indexItemsLoop] at heq
      · intro dbE sE heq
        simp only [indexItemsLoop, Except.error.injEq, Prod.mk.injEq] at heq
        obtain ⟨rfl, -⟩ := heq
        intro r hr hstale
        by_cases hP : r.remote_id ∈ P
        · have hall := ((hInv r hr).1 hP).2
          rw [hstale] at hall
          simp at hall
        · exact (hInv r hr).2 hP
    | ok items hasNext =>
      rcases hpage : indexPage clock items db tick s with ⟨db1, tick1, s1⟩
      have hpi := indexPage_inv clock checkDate db0 hClock items db tick s P hWF hInv
      rw [hpage] at hpi
      obtain ⟨hWF1, hInv1⟩ := hpi
      have hred : indexItemsLoop clock (PageRes.ok items hasNext :: rest) db tick s
          = if hasNext then indexItemsLoop clock rest db1 tick1 s1
            else .ok (db1, tick1, s1) := by
        simp [indexItemsLoop, hpage]
      cases hasNext with
      | true =>
        rw [hred]
        simp only [if_true]
        have hrec := ih db1 tick1 s1 (P ++ items.map (fun i => i.id)) hWF1 hInv1
        constructor
        · intro db2 tick2 s2 heq
          obtain ⟨hWF2, hInv2⟩ := hrec.1 db2 tick2 s2 heq
          refine ⟨hWF2, ?_⟩
          have : P ++ listedIds (PageRes.ok items true :: rest)
              = (P ++ items.map (fun i => i.id)) ++ listedIds rest := by
            simp [listedIds]
          rw [this]
          exact hInv2
        · exact hrec.2
      | false =>
        rw [hred]
        simp only [if_false, Bool.false_eq_true]
        constructor
        · intro db2 tick2 s2 heq
          simp only [Except.ok.injEq, Prod.mk.injEq] at heq
          obtain ⟨rfl, -, -⟩ := heq
          refine ⟨hWF1, ?_⟩
          have : P ++ listedIds (PageRes.ok items false :: rest)
              = P ++ items.map (fun i => i.id) := by
            simp [listedIds]
          rw [this]
          exact hInv1
        · intro dbE sE heq
          simp at heq

/-- C1: with rescan, after index_items ends normally every stored media item
whose remote id was absent from the processed listing is stale and every
item present is non-stale; and when a listing page raises, the marking never
runs - a row is stale in the state at the raise only if it was already a
stale row of the starting database.  Hypotheses: the schema constraints of
the table, a clock that never runs before the check_date read at entry (and
check_date is a non-empty timestamp), and a starting database whose rows
were all last checked before this run started. -/
theorem indexItemsRescanStaleCorrect (clock : Nat → String) (tick0 : Nat) (db0 : Db)
    (pages : List PageRes) (hWF : MediaWF db0)
    (hcd : ¬ clock tick0 = "")
    (hClock : ∀ i, strLt (clock i) (clock tick0) = false)
    (hFresh : ∀ r ∈ db0.mediaItems, strLt r.last_checked (clock tick0) = true) :
    (∀ db1 tick1 s1, indexItems clock tick0 db0 pages true = .ok (db1, tick1, s1) →
      (∀ r ∈ db1.mediaItems, r.remote_id ∉ listedIds pages → r.status = "stale") ∧
      (∀ r ∈ db1.mediaItems, r.remote_id ∈ listedIds pages → ¬ r.status = "stale")) ∧
    (∀ dbE sE, indexItems clock tick0 db0 pages true = .error (dbE, sE) →
      ∀ r ∈ dbE.mediaItems, r.status = "stale" → r ∈ db0.mediaItems) := by
  have hInv0 : IndexInv db0 (clock tick0) [] db0 := fun r hr =>
    ⟨fun h => absurd h (List.not_mem_nil _), fun _ => hr⟩
  have hloop := indexItemsLoop_inv clock (clock tick0) db0 hClock pages db0 (tick0 + 1)
    { indexed := 0, skipped := 0, failed := 0 } [] hWF hInv0
  have htr : strTruthy (some (clock tick0)) = true := by
    simp [strTruthy, hcd]
  constructor
  · intro db1 tick1 s1 heq
    unfold indexItems at heq
    cases hrun : indexItemsLoop clock pages db0 (tick0 + 1)
        { indexed := 0, skipped := 0, failed := 0 } with
    | error e => rw [hrun] at heq; simp at heq
    | ok x =>
      rcases x with ⟨dbL, tickL, sL⟩
      rw [hrun] at heq
      simp only [if_true, Except.ok.injEq, Prod.mk.injEq] at heq
      obtain ⟨hdb1, -, -⟩ := heq
      obtain ⟨hWFL, hInvL⟩ := hloop.1 dbL tickL sL hrun
      rw [List.nil_append] at hInvL
      subst hdb1
      constructor
      · intro r hr hnmem
        simp only [setMediaItemsStale, htr, if_true, List.mem_map, Option.getD_some] at hr
        obtain ⟨t, ht, rfl⟩ := hr
        by_cases hc : strLt t.last_checked (clock tick0) = true
        · rw [if_pos hc]
        · rw [if_neg hc] at hnmem ⊢
          exfalso
          have htdb0 : t ∈ db0.mediaItems := (hInvL t ht).2 hnmem
          exact hc (hFresh t htdb0)
      · intro r hr hmem
        simp only [setMediaItemsStale, htr, if_true, List.mem_map, Option.getD_some] at hr
        obtain ⟨t, ht, rfl⟩ := hr
        by_cases hc : strLt t.last_checked (clock tick0) = true
        · exfalso
          rw [if_pos hc] at hmem
          have hflt := ((hInvL t ht).1 hmem).1
          rw [hflt] at hc
          exact Bool.false_ne_true hc
        · rw [if_neg hc] at hmem ⊢
          have hall := ((hInvL t ht).1 hmem).2
          intro hstale
          rw [hstale] at hall
          simp at hall
  · intro dbE sE heq
    unfold indexItems at heq
    cases hrun : indexItemsLoop clock pages db0 (tick0 + 1)
        { indexed := 0, skipped := 0, failed := 0 } with
    | error e =>
      rw [hrun] at heq
      simp only [Except.error.injEq] at heq
      subst heq
      exact hloop.2 dbE sE hrun
    | ok x =>
      rcases x with ⟨dbL, tickL, sL⟩
      rw [hrun] at heq
      simp at heq

def c1Clock : Nat → String := fun _ => "t5"

/-- Two synced rows last checked before the run; the listing only returns
item A. -/
def c1Db0 : Db :=
  { mediaItems := [mkMedia 1 "A" "synced" "t1", mkMedia 2 "B" "synced" "t1"],
    albums := [], albumsItems := [], nextMediaId := 3, nextAlbumId := 1,
    nextAlbumItemId := 1 }

def c1Item : GMediaItem :=
  { id := "A", filename := "a.jpg", mimeType := "image/jpeg",
    creationTime := "2024-01-02T03:04:05Z" }

def c1Pages : List PageRes := [.ok [c1Item] false]

/-- Database after the witness run: A touched and still synced, B stale. -/
def c1Db1 : Db :=
  { mediaItems := [{ mkMedia 1 "A" "synced" "t1" with last_checked := "t5" },
      { mkMedia 2 "B" "synced" "t1" with status := "stale" }],
    albums := [], albumsItems := [], nextMediaId := 3, nextAlbumId := 1,
    nextAlbumItemId := 1 }

/-- Witness for C1: on the concrete run, the unlisted row B ends stale (and
all hypotheses of the theorem hold at this input). -/
theorem indexItemsRescanStaleCorrect_witness :
    MediaWF c1Db0 ∧
    (∀ r ∈ c1Db0.mediaItems, strLt r.last_checked (c1Clock 0) = true) ∧
    (∀ r ∈ c1Db1.mediaItems, r.remote_id ∉ listedIds c1Pages → r.status = "stale") :=
  ⟨⟨by decide, by decide, by decide⟩, by decide,
   ((indexItemsRescanStaleCorrect c1Clock 0 c1Db0 c1Pages
       ⟨by decide, by decide, by decide⟩ (by decide)
       (fun _ => (by decide : strLt "t5" "t5" = false)) (by decide)).1
     c1Db1 2 { indexed := 0, skipped := 1, failed := 0 } (by rfl)).1⟩
